import Mathlib

/-!
Verification of the zoot-games match server: shallow embedding of the six
game engines, the payment-proof verifier, the settlement routine and the
per-room turn-timer discipline, together with theorems settling the frozen
claims about them.

Conventions of the embedding:
* JavaScript arrays indexed by square (boards, pits) are modelled as total
  functions `Nat → _`; in-place element assignment becomes `Function.update`.
* Mutating methods become functions `State → ... → ROut × State`; an early
  `return {error}` becomes returning the unchanged input state.
* Action payload numbers are modelled as `Nat` (the negative-input guards of
  the source are then vacuous and omitted; every other guard is kept).
* Monetary amounts (SOL / lamports) are modelled as exact rationals.
* Wall-clock fields (turnStartTime, createdAt) and the per-seat view
  projections are not modelled; no claim refers to them.
* `Math.random` seating/shuffling is modelled by passing the shuffled deck
  (or start seat) as an explicit argument where it is needed.
-/

namespace ZG

/-- The structured outcome object returned by every engine method
(`{error}` or `{gameOver, winner, ...}` with game-specific extra flags). -/
structure ROut where
  error : Option String := none
  gameOver : Bool := false
  winner : Option Nat := none
  resigned : Bool := false
  check : Bool := false
  checkmate : Bool := false
  stalemate : Bool := false
  extraTurn : Bool := false
  multiJump : Bool := false
  drewTile : Bool := false
  newRound : Bool := false
  roundOver : Bool := false
  deriving Repr, DecidableEq

/-- Result object `{error: msg}`. -/
def errR (msg : String) : ROut := { error := some msg }

/-- Atomicity of one call: either the state came back unchanged or the call
succeeded (no error field). -/
abbrev atomicP {σ : Type} (s : σ) (x : ROut × σ) : Prop :=
  x.2 = s ∨ x.1.error = none

/-- Chess piece letters (the `type` strings K Q R B N P of the source). -/
inductive PieceT | K | Q | R | B | N | P
  deriving Repr, DecidableEq

/-- The client-supplied `game_action` payloads, one constructor per
`action.type` string used by any engine. -/
inductive Action where
  | place (cell : Nat)
  | move (fromSq toSq : Nat) (promotion : Option PieceT)
  | sow (pit : Nat)
  | play (tileIndex : Nat) (side : Option String)
  | draw
  | pass
  | next_round
  | resign
  deriving Repr, DecidableEq

/-! ## Tic-tac-toe (src/server/games/tictactoe.js) -/

namespace TTT

structure State where
  size : Nat
  winLength : Nat
  board : Nat → Option Nat
  currentPlayer : Nat
  gameOver : Bool
  winner : Option Nat

/-- Steps of the inner `for (step = 1; step < w; step++)` scan: number of
further consecutive cells of player `p` in direction `(dr, dc)`. -/
def runLen (b : Nat → Option Nat) (s p : Nat) (dr dc : Int) :
    Int → Int → Nat → Nat
  | _, _, 0 => 0
  | r, c, n+1 =>
    let nr := r + dr
    let nc := c + dc
    if 0 ≤ nr ∧ nr < (s : Int) ∧ 0 ≤ nc ∧ nc < (s : Int) then
      if b (nr * (s : Int) + nc).toNat = some p then
        1 + runLen b s p dr dc nr nc n
      else 0
    else 0

def directions : List (Int × Int) := [(0, 1), (1, 0), (1, 1), (1, -1)]

/-- `_checkWin(p)`. -/
def checkWin (b : Nat → Option Nat) (s w p : Nat) : Bool :=
  (List.range s).any fun r => (List.range s).any fun c =>
    b (r * s + c) = some p &&
      directions.any fun d => w ≤ 1 + runLen b s p d.1 d.2 (r : Int) (c : Int) (w - 1)

/-- `this.board.every(c => c !== null)` over the `size²` cells. -/
def boardFull (b : Nat → Option Nat) (s : Nat) : Bool :=
  (List.range (s * s)).all fun i => (b i).isSome

/-- `handleAction(playerIndex, action)`. -/
def handleAction (s : State) (playerIndex : Nat) (a : Action) : ROut × State :=
  if s.gameOver then (errR "Game is over", s)
  else if playerIndex ≠ s.currentPlayer then (errR "Not your turn", s)
  else match a with
    | Action.place cell =>
      let total := s.size * s.size
      if total ≤ cell ∨ (s.board cell).isSome then (errR "Invalid cell", s)
      else
        let b := Function.update s.board cell (some playerIndex)
        if checkWin b s.size s.winLength playerIndex then
          ({ gameOver := true, winner := some playerIndex },
            { s with board := b, gameOver := true, winner := some playerIndex })
        else if boardFull b s.size then
          ({ gameOver := true, winner := none },
            { s with board := b, gameOver := true, winner := none })
        else
          ({ gameOver := false },
            { s with board := b, currentPlayer := 1 - s.currentPlayer })
    | _ => (errR "Invalid action", s)

end TTT

/-! ## Gomoku / "morpion" 15×15 (src/unnamed/part_001, MorpionGame) -/

namespace Morpion

structure State where
  size : Nat
  winLength : Nat
  board : Nat → Option Nat
  currentPlayer : Nat
  gameOver : Bool
  winner : Option Nat
  winningCells : List Nat
  moveCount : Nat
  lastMove : Option Nat

/-- One directional scan of `_checkWin`, collecting the consecutive cells of
`p` starting one step away from `(r, c)`. -/
def collectRun (b : Nat → Option Nat) (s p : Nat) (dr dc : Int) :
    Int → Int → Nat → List Nat
  | _, _, 0 => []
  | r, c, n+1 =>
    let nr := r + dr
    let nc := c + dc
    if 0 ≤ nr ∧ nr < (s : Int) ∧ 0 ≤ nc ∧ nc < (s : Int) ∧
        b (nr * (s : Int) + nc).toNat = some p then
      (nr * (s : Int) + nc).toNat :: collectRun b s p dr dc nr nc n
    else []

def directions : List (Int × Int) := [(0, 1), (1, 0), (1, 1), (1, -1)]

/-- `_checkWin(cell, player)`: the winning cell list if one direction reaches
the win length, else `none`. -/
def checkWin (b : Nat → Option Nat) (s w cell p : Nat) : Option (List Nat) :=
  let r : Int := (cell / s : Nat)
  let c : Int := (cell % s : Nat)
  directions.findSome? fun d =>
    let cells := cell :: (collectRun b s p d.1 d.2 r c (w - 1) ++
      collectRun b s p (-d.1) (-d.2) r c (w - 1))
    if w ≤ cells.length then some cells else none

/-- `handleAction(playerIndex, action)`. -/
def handleAction (s : State) (playerIndex : Nat) (a : Action) : ROut × State :=
  if s.gameOver then (errR "Game is over", s)
  else match a with
  | Action.resign =>
    ({ gameOver := true, winner := some (1 - playerIndex), resigned := true },
      { s with gameOver := true, winner := some (1 - playerIndex) })
  | _ =>
    if playerIndex ≠ s.currentPlayer then (errR "Not your turn", s)
    else match a with
    | Action.place cell =>
      let total := s.size * s.size
      if total ≤ cell ∨ (s.board cell).isSome then (errR "Invalid cell", s)
      else
        let b := Function.update s.board cell (some playerIndex)
        let s1 := { s with
          board := b
          moveCount := s.moveCount + 1
          lastMove := some cell }
        match checkWin b s.size s.winLength cell playerIndex with
        | some cells =>
          ({ gameOver := true, winner := some playerIndex },
            { s1 with
              gameOver := true
              winner := some playerIndex
              winningCells := cells })
        | none =>
          if total ≤ s1.moveCount then
            ({ gameOver := true, winner := none },
              { s1 with gameOver := true, winner := none })
          else
            ({ gameOver := false },
              { s1 with currentPlayer := 1 - s.currentPlayer })
    | _ => (errR "Invalid action", s)

end Morpion

/-! ## Mancala (src/unnamed/part_001, MancalaGame) -/

namespace Mancala

structure State where
  pits : Nat → Nat
  currentPlayer : Nat
  gameOver : Bool
  winner : Option Nat

def store (p : Nat) : Nat := if p = 0 then 6 else 13
def pitsLo (p : Nat) : Nat := if p = 0 then 0 else 7
def pitsHi (p : Nat) : Nat := if p = 0 then 5 else 12
def oppStore (p : Nat) : Nat := if p = 0 then 13 else 6

/-- One step of the sowing loop: advance counter-clockwise, skipping the
opponent store (`pos = (pos+1) % 14; if (pos === oppStoreIdx) pos = (pos+1) % 14`). -/
def sowStep (opp pos : Nat) : Nat :=
  let p1 := (pos + 1) % 14
  if p1 = opp then (p1 + 1) % 14 else p1

/-- The sowing loop `for (i = 0; i < seeds; i++) { pos = step; pits[pos]++ }`,
returning the final position and the pits. -/
def sowLoop (opp : Nat) : Nat → Nat → (Nat → Nat) → Nat × (Nat → Nat)
  | 0, pos, pits => (pos, pits)
  | n+1, pos, pits =>
    let p1 := sowStep opp pos
    sowLoop opp n p1 (Function.update pits p1 (pits p1 + 1))

/-- `_isSideEmpty(player)`. -/
def isSideEmpty (pits : Nat → Nat) (p : Nat) : Bool :=
  (List.range 6).all fun k => pits (pitsLo p + k) = 0

/-- The inner loop of `_collectRemaining` for one store. -/
def collectLoop (st : Nat) : List Nat → (Nat → Nat) → (Nat → Nat)
  | [], pits => pits
  | i :: rest, pits =>
    collectLoop st rest
      (Function.update (Function.update pits st (pits st + pits i)) i 0)

/-- `_collectRemaining()`: sweep both sides into their stores. -/
def collectRemaining (pits : Nat → Nat) : Nat → Nat :=
  collectLoop 13 [7, 8, 9, 10, 11, 12] (collectLoop 6 [0, 1, 2, 3, 4, 5] pits)

/-- `handleAction(playerIndex, action)`. -/
def handleAction (s : State) (playerIndex : Nat) (a : Action) : ROut × State :=
  if s.gameOver then (errR "Game is over", s)
  else match a with
  | Action.resign =>
    ({ gameOver := true, winner := some (1 - playerIndex), resigned := true },
      { s with gameOver := true, winner := some (1 - playerIndex) })
  | _ =>
    if playerIndex ≠ s.currentPlayer then (errR "Not your turn", s)
    else match a with
    | Action.sow pit =>
      if pit < pitsLo playerIndex ∨ pitsHi playerIndex < pit then
        (errR "Not your pit", s)
      else if s.pits pit = 0 then (errR "Pit is empty", s)
      else
        let seeds := s.pits pit
        let pits0 := Function.update s.pits pit 0
        let sown := sowLoop (oppStore playerIndex) seeds pit pits0
        let pos := sown.1
        let pits1 := sown.2
        let myStore := store playerIndex
        let extraTurn : Bool := pos = myStore
        let pits2 :=
          if extraTurn = false ∧ pitsLo playerIndex ≤ pos ∧ pos ≤ pitsHi playerIndex ∧
              pits1 pos = 1 ∧ 0 < pits1 (12 - pos) then
            Function.update (Function.update
              (Function.update pits1 myStore (pits1 myStore + pits1 (12 - pos) + 1))
              (12 - pos) 0) pos 0
          else pits1
        if isSideEmpty pits2 0 ∨ isSideEmpty pits2 1 then
          let pits3 := collectRemaining pits2
          let w : Option Nat :=
            if pits3 13 < pits3 6 then some 0
            else if pits3 6 < pits3 13 then some 1
            else some playerIndex
          ({ gameOver := true, winner := w },
            { s with pits := pits3, gameOver := true, winner := w })
        else
          ({ gameOver := false, extraTurn := extraTurn },
            { s with
              pits := pits2
              currentPlayer := if extraTurn then s.currentPlayer else 1 - s.currentPlayer })
    | _ => (errR "Invalid action", s)

end Mancala

/-! ## Checkers (src/server/games/checkers.js) -/

namespace Checkers

structure Piece where
  player : Nat
  king : Bool
  deriving Repr, DecidableEq

structure State where
  board : Nat → Option Piece
  currentPlayer : Nat
  gameOver : Bool
  winner : Option Nat
  mustJumpFrom : Option Nat

structure Jump where
  dst : Nat
  captured : Nat
  deriving Repr, DecidableEq

/-- The diagonal directions a piece may use (kings all four, men forward only). -/
def dirsFor (piece : Piece) : List (Int × Int) :=
  if piece.king then [(-1, -1), (-1, 1), (1, -1), (1, 1)]
  else if piece.player = 0 then [(-1, -1), (-1, 1)]
  else [(1, -1), (1, 1)]

/-- `_getJumps(pos, piece)`. -/
def getJumps (b : Nat → Option Piece) (pos : Nat) (piece : Piece) : List Jump :=
  let r : Int := (pos / 8 : Nat)
  let c : Int := (pos % 8 : Nat)
  (dirsFor piece).filterMap fun d =>
    let mr := r + d.1
    let mc := c + d.2
    let lr := r + 2 * d.1
    let lc := c + 2 * d.2
    if 0 ≤ lr ∧ lr ≤ 7 ∧ 0 ≤ lc ∧ lc ≤ 7 then
      match b ((mr * 8 + mc).toNat) with
      | some mp =>
        if mp.player ≠ piece.player ∧ b ((lr * 8 + lc).toNat) = none then
          some ⟨(lr * 8 + lc).toNat, (mr * 8 + mc).toNat⟩
        else none
      | none => none
    else none

/-- `_getMoves(pos, piece)` (the non-capturing single-step moves). -/
def getMoves (b : Nat → Option Piece) (pos : Nat) (piece : Piece) : List Nat :=
  let r : Int := (pos / 8 : Nat)
  let c : Int := (pos % 8 : Nat)
  (dirsFor piece).filterMap fun d =>
    let nr := r + d.1
    let nc := c + d.2
    if 0 ≤ nr ∧ nr ≤ 7 ∧ 0 ≤ nc ∧ nc ≤ 7 then
      if b ((nr * 8 + nc).toNat) = none then some ((nr * 8 + nc).toNat) else none
    else none

/-- `_playerHasJumps(player)`. -/
def playerHasJumps (b : Nat → Option Piece) (player : Nat) : Bool :=
  (List.range 64).any fun i =>
    match b i with
    | some p => p.player = player && !(getJumps b i p).isEmpty
    | none => false

/-- `_playerHasMoves(player)`. -/
def playerHasMoves (b : Nat → Option Piece) (player : Nat) : Bool :=
  (List.range 64).any fun i =>
    match b i with
    | some p => p.player = player &&
        (!(getJumps b i p).isEmpty || !(getMoves b i p).isEmpty)
    | none => false

/-- `_countPieces(player)`. -/
def countPieces (b : Nat → Option Piece) (player : Nat) : Nat :=
  ((List.range 64).filter fun i =>
    match b i with
    | some p => p.player = player
    | none => false).length

/-- `_shouldKing(pos, player)`. -/
def shouldKing (pos player : Nat) : Bool :=
  (player = 0 && pos / 8 = 0) || (player = 1 && pos / 8 = 7)

/-- `_endTurn()`. -/
def endTurn (s : State) : ROut × State :=
  let s1 := { s with currentPlayer := 1 - s.currentPlayer }
  if !(playerHasMoves s1.board s1.currentPlayer) then
    ({ gameOver := true, winner := some (1 - s1.currentPlayer) },
      { s1 with gameOver := true, winner := some (1 - s1.currentPlayer) })
  else if countPieces s1.board s1.currentPlayer = 0 then
    ({ gameOver := true, winner := some (1 - s1.currentPlayer) },
      { s1 with gameOver := true, winner := some (1 - s1.currentPlayer) })
  else ({ gameOver := false }, s1)

/-- The mutation tail of an accepted jump: land the piece, remove the man
it jumped, king it when the landing square is the back rank, then either
continue the multi-jump (when the moved piece has further jumps) or pass
the turn. -/
def applyJump (s : State) (playerIndex fromSq toSq : Nat) (piece : Piece)
    (jmp : Jump) : ROut × State :=
  let b1 := Function.update s.board toSq (some piece)
  let b2 := Function.update b1 fromSq none
  let b3 := Function.update b2 jmp.captured none
  let pieceK := if shouldKing toSq playerIndex then { piece with king := true } else piece
  let b4 := Function.update b3 toSq (some pieceK)
  if !(getJumps b4 toSq pieceK).isEmpty then
    ({ gameOver := false, multiJump := true },
      { s with board := b4, mustJumpFrom := some toSq })
  else
    endTurn { s with board := b4, mustJumpFrom := none }

/-- The mutation tail of an accepted plain move. -/
def applyStep (s : State) (playerIndex fromSq toSq : Nat) (piece : Piece) :
    ROut × State :=
  let b1 := Function.update s.board toSq (some piece)
  let b2 := Function.update b1 fromSq none
  let pieceK := if shouldKing toSq playerIndex then { piece with king := true } else piece
  let b3 := Function.update b2 toSq (some pieceK)
  endTurn { s with board := b3, mustJumpFrom := none }

/-- `handleAction(playerIndex, action)`. -/
def handleAction (s : State) (playerIndex : Nat) (a : Action) : ROut × State :=
  if s.gameOver then (errR "Game is over", s)
  else match a with
  | Action.resign =>
    ({ gameOver := true, winner := some (1 - playerIndex), resigned := true },
      { s with gameOver := true, winner := some (1 - playerIndex) })
  | _ =>
    if playerIndex ≠ s.currentPlayer then (errR "Not your turn", s)
    else match a with
    | Action.move fromSq toSq _ =>
      if 63 < fromSq ∨ 63 < toSq then (errR "Invalid square", s)
      else match s.board fromSq with
      | none => (errR "Not your piece", s)
      | some piece =>
        if piece.player ≠ playerIndex then (errR "Not your piece", s)
        else if s.mustJumpFrom.isSome ∧ s.mustJumpFrom ≠ some fromSq then
          (errR "Must continue jumping with the same piece", s)
        else
          let jumps := getJumps s.board fromSq piece
          let hasAnyJumps := s.mustJumpFrom.isSome || playerHasJumps s.board playerIndex
          if hasAnyJumps then
            match jumps.find? (fun j => j.dst = toSq) with
            | none => (errR "Must capture when possible", s)
            | some jmp => applyJump s playerIndex fromSq toSq piece jmp
          else
            let fr : Int := (fromSq / 8 : Nat)
            let fc : Int := (fromSq % 8 : Nat)
            let tr : Int := (toSq / 8 : Nat)
            let tc : Int := (toSq % 8 : Nat)
            let dr := tr - fr
            let dc := tc - fc
            if dr.natAbs ≠ 1 ∨ dc.natAbs ≠ 1 then (errR "Invalid move", s)
            else if piece.king = false ∧ playerIndex = 0 ∧ 0 ≤ dr then
              (errR "Must move forward", s)
            else if piece.king = false ∧ playerIndex = 1 ∧ dr ≤ 0 then
              (errR "Must move forward", s)
            else if (s.board toSq).isSome then (errR "Square occupied", s)
            else applyStep s playerIndex fromSq toSq piece
    | _ => (errR "Invalid action", s)

end Checkers

/-! ## Dominoes, draw mode first to 50 (src/server/games/domino.js, first class) -/

namespace Domino

abbrev Tile := Nat × Nat

def TARGET_SCORE : Nat := 50

structure State where
  scores : Nat → Nat
  round : Nat
  roundOver : Bool
  roundWinner : Option Nat
  roundPoints : Nat
  pipCounts : Nat → Nat
  gameOver : Bool
  winner : Option Nat
  hands : Nat → List Tile
  boneyard : List Tile
  board : List Tile
  boardLeft : Option Nat
  boardRight : Option Nat
  currentPlayer : Nat
  consecutivePasses : Nat

/-- The full double-six set, in construction order. -/
def allTiles : List Tile :=
  (List.range 7).flatMap fun i => (List.range (7 - i)).map fun k => (i, i + k)

/-- `_findStartingPlayer()`: the seat holding the highest double, else 0. -/
def findStartingPlayer (h0 h1 : List Tile) : Nat :=
  (((List.range 7).reverse).findSome? fun d =>
    if h0.any (fun t => t.1 = d && t.2 = d) then some 0
    else if h1.any (fun t => t.1 = d && t.2 = d) then some 1
    else none).getD 0

/-- `_startNewRound()`; the shuffle is modelled by taking the already
shuffled deck as the argument. -/
def startNewRound (s : State) (deck : List Tile) : State :=
  let h0 := deck.take 7
  let h1 := (deck.drop 7).take 7
  { s with
    round := s.round + 1
    roundOver := false
    roundWinner := none
    roundPoints := 0
    pipCounts := fun _ => 0
    consecutivePasses := 0
    board := []
    boardLeft := none
    boardRight := none
    hands := fun p => if p = 0 then h0 else h1
    boneyard := deck.drop 14
    currentPlayer := findStartingPlayer h0 h1 }

/-- `_pipCount(playerIndex)`. -/
def pipCount (s : State) (p : Nat) : Nat :=
  ((s.hands p).map fun t => t.1 + t.2).sum

/-- `_hasPlayableTile(playerIndex)`. -/
def hasPlayableTile (s : State) (p : Nat) : Bool :=
  s.board.isEmpty ||
    (s.hands p).any fun t =>
      some t.1 = s.boardLeft || some t.2 = s.boardLeft ||
      some t.1 = s.boardRight || some t.2 = s.boardRight

/-- `_autoPickSide(tile)`. -/
def autoPickSide (s : State) (tile : Tile) : Option String :=
  let mL := some tile.1 = s.boardLeft || some tile.2 = s.boardLeft
  let mR := some tile.1 = s.boardRight || some tile.2 = s.boardRight
  if mL && !mR then some "left"
  else if mR && !mL then some "right"
  else none

/-- `_endRound(roundWinner)`. -/
def endRound (s : State) (roundWinner : Nat) : ROut × State :=
  let pc : Nat → Nat := fun p => if p = 0 then pipCount s 0 else pipCount s 1
  let loser := 1 - roundWinner
  let points := pc loser
  let scores1 := Function.update s.scores roundWinner (s.scores roundWinner + points)
  let s1 := { s with
    roundOver := true
    roundWinner := some roundWinner
    pipCounts := pc
    roundPoints := points
    scores := scores1 }
  if TARGET_SCORE ≤ scores1 roundWinner then
    ({ gameOver := true, winner := some roundWinner, roundOver := true },
      { s1 with gameOver := true, winner := some roundWinner })
  else
    ({ gameOver := false, roundOver := true, winner := some roundWinner }, s1)

/-- `_endTurn(playerIndex)`. -/
def endTurn (s : State) (playerIndex : Nat) : ROut × State :=
  if (s.hands playerIndex).isEmpty then endRound s playerIndex
  else ({ gameOver := false }, { s with currentPlayer := 1 - s.currentPlayer })

/-- `_endRoundBlockedWinner(winner)`. -/
def endRoundBlockedWinner (s : State) (w : Nat) : ROut × State :=
  let loser := 1 - w
  let points := s.pipCounts loser - s.pipCounts w
  let scores1 := Function.update s.scores w (s.scores w + points)
  let s1 := { s with
    roundOver := true
    roundWinner := some w
    roundPoints := points
    scores := scores1 }
  if TARGET_SCORE ≤ scores1 w then
    ({ gameOver := true, winner := some w, roundOver := true },
      { s1 with gameOver := true, winner := some w })
  else
    ({ gameOver := false, roundOver := true, winner := some w }, s1)

/-- `_endRoundBlocked()`. -/
def endRoundBlocked (s : State) : ROut × State :=
  let pc : Nat → Nat := fun p => if p = 0 then pipCount s 0 else pipCount s 1
  let s1 := { s with pipCounts := pc }
  if pc 0 < pc 1 then endRoundBlockedWinner s1 0
  else if pc 1 < pc 0 then endRoundBlockedWinner s1 1
  else
    ({ gameOver := false, roundOver := true, winner := none },
      { s1 with roundOver := true, roundWinner := none, roundPoints := 0 })

/-- `_playTile(playerIndex, tileIndex, side)`. -/
def playTile (s : State) (playerIndex tileIndex : Nat) (side : Option String) :
    ROut × State :=
  let hand := s.hands playerIndex
  if hand.length ≤ tileIndex then (errR "Invalid tile", s)
  else
    let tile := hand.getD tileIndex (0, 0)
    if s.board.isEmpty then
      endTurn { s with
        hands := Function.update s.hands playerIndex (hand.eraseIdx tileIndex)
        board := s.board ++ [tile]
        boardLeft := some tile.1
        boardRight := some tile.2
        consecutivePasses := 0 } playerIndex
    else
      match (match side with | none => autoPickSide s tile | some x => some x) with
      | none => (errR "Tile does not match either end", s)
      | some sd =>
        let attempt : Except String State :=
          if sd = "left" then
            if some tile.2 = s.boardLeft then
              Except.ok { s with
                hands := Function.update s.hands playerIndex (hand.eraseIdx tileIndex)
                board := tile :: s.board
                boardLeft := some tile.1 }
            else if some tile.1 = s.boardLeft then
              Except.ok { s with
                hands := Function.update s.hands playerIndex (hand.eraseIdx tileIndex)
                board := (tile.2, tile.1) :: s.board
                boardLeft := some tile.2 }
            else Except.error "Tile does not match left end"
          else if sd = "right" then
            if some tile.1 = s.boardRight then
              Except.ok { s with
                hands := Function.update s.hands playerIndex (hand.eraseIdx tileIndex)
                board := s.board ++ [tile]
                boardRight := some tile.2 }
            else if some tile.2 = s.boardRight then
              Except.ok { s with
                hands := Function.update s.hands playerIndex (hand.eraseIdx tileIndex)
                board := s.board ++ [(tile.2, tile.1)]
                boardRight := some tile.1 }
            else Except.error "Tile does not match right end"
          else Except.ok s
        match attempt with
        | Except.error e => (errR e, s)
        | Except.ok s2 => endTurn { s2 with consecutivePasses := 0 } playerIndex

/-- `_drawFromBoneyard(playerIndex)` (`boneyard.pop()` takes the last tile). -/
def drawFromBoneyard (s : State) (playerIndex : Nat) : ROut × State :=
  match s.boneyard.getLast? with
  | none => (errR "Boneyard is empty, you must pass", s)
  | some t =>
    ({ drewTile := true, gameOver := false },
      { s with
        boneyard := s.boneyard.dropLast
        hands := Function.update s.hands playerIndex (s.hands playerIndex ++ [t]) })

/-- `_pass(playerIndex)`. -/
def passMove (s : State) (_playerIndex : Nat) : ROut × State :=
  if !s.boneyard.isEmpty then (errR "You must draw from the pile first", s)
  else if hasPlayableTile s _playerIndex then (errR "You have a playable tile", s)
  else
    let s1 := { s with consecutivePasses := s.consecutivePasses + 1 }
    if 2 ≤ s1.consecutivePasses then endRoundBlocked s1
    else ({ gameOver := false }, { s1 with currentPlayer := 1 - s1.currentPlayer })

/-- `handleAction(playerIndex, action)`; `deck` is the shuffled tile list a
`next_round` would deal from. -/
def handleAction (deck : List Tile) (s : State) (playerIndex : Nat) (a : Action) :
    ROut × State :=
  if s.gameOver then (errR "Game is over", s)
  else match a with
  | Action.next_round =>
    if !s.roundOver then (errR "Round is not over yet", s)
    else if s.gameOver then (errR "Game is already over", s)
    else ({ newRound := true, gameOver := false }, startNewRound s deck)
  | _ =>
    if s.roundOver then (errR "Round is over — waiting for next round", s)
    else if playerIndex ≠ s.currentPlayer then (errR "Not your turn", s)
    else match a with
    | Action.play tileIndex side => playTile s playerIndex tileIndex side
    | Action.draw => drawFromBoneyard s playerIndex
    | Action.pass => passMove s playerIndex
    | _ => (errR "Invalid action", s)

end Domino

/-! ## Chess (src/unnamed/part_000, ChessGame) -/

namespace Chess

structure Piece where
  t : PieceT
  player : Nat
  deriving Repr, DecidableEq

structure CastleR where
  kingSide : Bool
  queenSide : Bool
  deriving Repr, DecidableEq

structure State where
  board : Nat → Option Piece
  currentPlayer : Nat
  gameOver : Bool
  winner : Option Nat
  castlingRights : Nat → CastleR
  enPassant : Option Nat
  halfMoveClock : Nat
  moveHistory : List (Nat × Nat × PieceT × Nat)
  inCheck : Bool

def onBoard (nr nc : Int) : Bool := 0 ≤ nr && nr ≤ 7 && 0 ≤ nc && nc ≤ 7

/-- Square index of integer coordinates (only used on board). -/
def sqIx (nr nc : Int) : Nat := (nr * 8 + nc).toNat

/-- One direction of `addSlide`: walk until the edge or a blocker. -/
def slideGo (b : Nat → Option Piece) (player : Nat) (dr dc : Int) :
    Int → Int → Nat → List Nat
  | _, _, 0 => []
  | r, c, n+1 =>
    let nr := r + dr
    let nc := c + dc
    if onBoard nr nc then
      match b (sqIx nr nc) with
      | some tgt => if tgt.player ≠ player then [sqIx nr nc] else []
      | none => sqIx nr nc :: slideGo b player dr dc nr nc n
    else []

def addSlide (b : Nat → Option Piece) (player : Nat) (r c : Int)
    (dirs : List (Int × Int)) : List Nat :=
  dirs.flatMap fun d => slideGo b player d.1 d.2 r c 7

def knightDeltas : List (Int × Int) :=
  [(-2, -1), (-2, 1), (-1, -2), (-1, 2), (1, -2), (1, 2), (2, -1), (2, 1)]

def kingDeltas : List (Int × Int) :=
  [(-1, -1), (-1, 0), (-1, 1), (0, -1), (0, 1), (1, -1), (1, 0), (1, 1)]

/-- `_rawMoves(pos, piece)` (pseudo-legal destinations; pawn forward pushes
included, as in the source, which also uses them for attack detection). -/
def rawMoves (b : Nat → Option Piece) (ep : Option Nat) (pos : Nat)
    (piece : Piece) : List Nat :=
  let r : Int := (pos / 8 : Nat)
  let c : Int := (pos % 8 : Nat)
  match piece.t with
  | PieceT.P =>
    let dir : Int := if piece.player = 0 then -1 else 1
    let startRow : Int := if piece.player = 0 then 6 else 1
    let nr := r + dir
    let fwd : List Nat :=
      if 0 ≤ nr ∧ nr ≤ 7 ∧ b (sqIx nr c) = none then
        sqIx nr c ::
          (if r = startRow ∧ b (sqIx (r + 2 * dir) c) = none then
            [sqIx (r + 2 * dir) c] else [])
      else []
    let caps : List Nat := [(-1 : Int), 1].flatMap fun dc =>
      let nc := c + dc
      if 0 ≤ nc ∧ nc ≤ 7 ∧ 0 ≤ nr ∧ nr ≤ 7 then
        (match b (sqIx nr nc) with
          | some tgt => if tgt.player ≠ piece.player then [sqIx nr nc] else []
          | none => []) ++
        (if ep = some (sqIx nr nc) then [sqIx nr nc] else [])
      else []
    fwd ++ caps
  | PieceT.N =>
    knightDeltas.filterMap fun d =>
      let nr := r + d.1
      let nc := c + d.2
      if onBoard nr nc then
        match b (sqIx nr nc) with
        | some tgt => if tgt.player ≠ piece.player then some (sqIx nr nc) else none
        | none => some (sqIx nr nc)
      else none
  | PieceT.B => addSlide b piece.player r c [(-1, -1), (-1, 1), (1, -1), (1, 1)]
  | PieceT.R => addSlide b piece.player r c [(-1, 0), (1, 0), (0, -1), (0, 1)]
  | PieceT.Q => addSlide b piece.player r c
      [(-1, -1), (-1, 1), (1, -1), (1, 1), (-1, 0), (1, 0), (0, -1), (0, 1)]
  | PieceT.K =>
    kingDeltas.filterMap fun d =>
      let nr := r + d.1
      let nc := c + d.2
      if onBoard nr nc then
        match b (sqIx nr nc) with
        | some tgt => if tgt.player ≠ piece.player then some (sqIx nr nc) else none
        | none => some (sqIx nr nc)
      else none

/-- `_findKing(player)` (`none` models the -1 of the source; -1 is never an
attack target, so an absent king is never in check). -/
def findKing (b : Nat → Option Piece) (player : Nat) : Option Nat :=
  (List.range 64).find? fun i =>
    match b i with
    | some p => p.player = player && p.t = PieceT.K
    | none => false

/-- `_isSquareAttacked(sq, byPlayer)`. -/
def isSquareAttacked (b : Nat → Option Piece) (ep : Option Nat)
    (target byPlayer : Nat) : Bool :=
  (List.range 64).any fun i =>
    match b i with
    | some p => p.player = byPlayer && (rawMoves b ep i p).contains target
    | none => false

/-- `_isInCheck(player)`. -/
def isInCheck (b : Nat → Option Piece) (ep : Option Nat) (player : Nat) : Bool :=
  match findKing b player with
  | some kp => isSquareAttacked b ep kp (1 - player)
  | none => false

/-- One iteration of the `_getLegalMoves` loop: apply the candidate move
speculatively, test check, and back everything out (the try-then-undo of the
source, with the saved squares restored in source order). -/
def tryUndo (b : Nat → Option Piece) (ep : Option Nat) (pos : Nat)
    (piece : Piece) (toSq : Nat) : Bool × (Nat → Option Piece) :=
  let saved := b toSq
  let epData : Option (Nat × Option Piece) :=
    if piece.t = PieceT.P ∧ some toSq = ep then
      let tr := toSq / 8
      let tc := toSq % 8
      let epR := if piece.player = 0 then tr + 1 else tr - 1
      some (epR * 8 + tc, b (epR * 8 + tc))
    else none
  let b0 := match epData with
    | some x => Function.update b x.1 none
    | none => b
  let b1 := Function.update b0 toSq (some piece)
  let b2 := Function.update b1 pos none
  let ok := !(isInCheck b2 ep piece.player)
  let b3 := Function.update b2 pos (some piece)
  let b4 := Function.update b3 toSq saved
  let b5 := match epData with
    | some x => Function.update b4 x.1 x.2
    | none => b4
  (ok, b5)

/-- The `for (const to of raw)` filtering loop, threading the mutated board. -/
def legalLoop (ep : Option Nat) (pos : Nat) (piece : Piece) :
    List Nat → (Nat → Option Piece) → List Nat × (Nat → Option Piece)
  | [], b => ([], b)
  | t :: rest, b =>
    let step := tryUndo b ep pos piece t
    let tail := legalLoop ep pos piece rest step.2
    (if step.1 then t :: tail.1 else tail.1, tail.2)

/-- The castling block at the end of `_getLegalMoves` (only entered for a
king). -/
def castleMoves (b : Nat → Option Piece) (ep : Option Nat) (cr : CastleR)
    (pos : Nat) (piece : Piece) : List Nat :=
  let r := pos / 8
  let ks : List Nat :=
    if cr.kingSide ∧ b (r * 8 + 5) = none ∧ b (r * 8 + 6) = none then
      match b (r * 8 + 7) with
      | some rook =>
        if rook.t = PieceT.R ∧ rook.player = piece.player ∧
            isInCheck b ep piece.player = false ∧
            isSquareAttacked b ep (r * 8 + 5) (1 - piece.player) = false ∧
            isSquareAttacked b ep (r * 8 + 6) (1 - piece.player) = false then
          [r * 8 + 6]
        else []
      | none => []
    else []
  let qs : List Nat :=
    if cr.queenSide ∧ b (r * 8 + 1) = none ∧ b (r * 8 + 2) = none ∧
        b (r * 8 + 3) = none then
      match b (r * 8 + 0) with
      | some rook =>
        if rook.t = PieceT.R ∧ rook.player = piece.player ∧
            isInCheck b ep piece.player = false ∧
            isSquareAttacked b ep (r * 8 + 2) (1 - piece.player) = false ∧
            isSquareAttacked b ep (r * 8 + 3) (1 - piece.player) = false then
          [r * 8 + 2]
        else []
      | none => []
    else []
  ks ++ qs

/-- `_getLegalMoves(pos)` with the board side effects threaded through. -/
def getLegalMovesSt (st : State) (pos : Nat) : List Nat × State :=
  match st.board pos with
  | none => ([], st)
  | some piece =>
    let raw := rawMoves st.board st.enPassant pos piece
    let lp := legalLoop st.enPassant pos piece raw st.board
    let legal := lp.1 ++
      (if piece.t = PieceT.K then
        castleMoves lp.2 st.enPassant (st.castlingRights piece.player) pos piece
      else [])
    (legal, { st with board := lp.2 })

/-- The legal-move list of a square (the externally observable result). -/
def legalMoves (st : State) (pos : Nat) : List Nat := (getLegalMovesSt st pos).1

/-- `_hasLegalMoves(player)`. -/
def hasLegalMoves (st : State) (player : Nat) : Bool :=
  (List.range 64).any fun i =>
    match st.board i with
    | some p => p.player = player && !(legalMoves st i).isEmpty
    | none => false

/-- `_makeMove(from, to, promotion)`. -/
def makeMove (st : State) (fromSq toSq : Nat) (promotion : Option PieceT) : State :=
  match st.board fromSq with
  | none => st
  | some piece =>
    let captured := st.board toSq
    let fr := fromSq / 8
    let fc := fromSq % 8
    let tr := toSq / 8
    let tc := toSq % 8
    let halfMove := if piece.t = PieceT.P ∨ captured.isSome then 0
      else st.halfMoveClock + 1
    let b0 :=
      if piece.t = PieceT.P ∧ some toSq = st.enPassant then
        let epR := if piece.player = 0 then tr + 1 else tr - 1
        Function.update st.board (epR * 8 + tc) none
      else st.board
    let ep1 : Option Nat :=
      if piece.t = PieceT.P ∧ ((fr : Int) - tr).natAbs = 2 then
        some (((fr + tr) / 2) * 8 + fc)
      else none
    let cr1 :=
      if piece.t = PieceT.K then
        Function.update st.castlingRights piece.player ⟨false, false⟩
      else st.castlingRights
    let b1 :=
      if piece.t = PieceT.K ∧ ((fc : Int) - tc).natAbs = 2 then
        if tc = 6 then
          Function.update (Function.update b0 (fr * 8 + 5) (b0 (fr * 8 + 7)))
            (fr * 8 + 7) none
        else if tc = 2 then
          Function.update (Function.update b0 (fr * 8 + 3) (b0 (fr * 8 + 0)))
            (fr * 8 + 0) none
        else b0
      else b0
    let cr2 :=
      if piece.t = PieceT.R then
        if fc = 0 then
          Function.update cr1 piece.player ⟨(cr1 piece.player).kingSide, false⟩
        else if fc = 7 then
          Function.update cr1 piece.player ⟨false, (cr1 piece.player).queenSide⟩
        else cr1
      else cr1
    let cr3 :=
      match captured with
      | some cap =>
        if cap.t = PieceT.R then
          if tc = 0 then
            Function.update cr2 cap.player ⟨(cr2 cap.player).kingSide, false⟩
          else if tc = 7 then
            Function.update cr2 cap.player ⟨false, (cr2 cap.player).queenSide⟩
          else cr2
        else cr2
      | none => cr2
    let b2 := Function.update b1 toSq (some piece)
    let b3 := Function.update b2 fromSq none
    let promRank := if piece.player = 0 then 0 else 7
    let finalT :=
      if piece.t = PieceT.P ∧ tr = promRank then
        match promotion with
        | some pt =>
          if pt = PieceT.Q ∨ pt = PieceT.R ∨ pt = PieceT.B ∨ pt = PieceT.N then pt
          else PieceT.Q
        | none => PieceT.Q
      else piece.t
    let b4 := Function.update b3 toSq (some ⟨finalT, piece.player⟩)
    { st with
      board := b4
      enPassant := ep1
      castlingRights := cr3
      halfMoveClock := halfMove
      moveHistory := st.moveHistory ++ [(fromSq, toSq, finalT, piece.player)] }

/-- The tail of `handleAction` past the legality check: make the move, flip
the turn, recompute check and test for the end of the game. -/
def applyLegalMove (st1 : State) (playerIndex fromSq toSq : Nat)
    (promotion : Option PieceT) : ROut × State :=
  let st2 := makeMove st1 fromSq toSq promotion
  let st3 := { st2 with currentPlayer := 1 - st2.currentPlayer }
  let inChk := isInCheck st3.board st3.enPassant st3.currentPlayer
  let st4 := { st3 with inCheck := inChk }
  if !(hasLegalMoves st4 st4.currentPlayer) then
    let w := if inChk then some playerIndex else none
    ({ gameOver := true, winner := w, checkmate := inChk, stalemate := !inChk },
      { st4 with gameOver := true, winner := w })
  else ({ gameOver := false, check := inChk }, st4)

/-- `handleAction(playerIndex, action)`. -/
def handleAction (st : State) (playerIndex : Nat) (a : Action) : ROut × State :=
  if st.gameOver then (errR "Game is over", st)
  else match a with
  | Action.resign =>
    ({ gameOver := true, winner := some (1 - playerIndex), resigned := true },
      { st with gameOver := true, winner := some (1 - playerIndex) })
  | _ =>
    if playerIndex ≠ st.currentPlayer then (errR "Not your turn", st)
    else match a with
    | Action.move fromSq toSq promotion =>
      if 63 < fromSq ∨ 63 < toSq then (errR "Invalid square", st)
      else match st.board fromSq with
      | none => (errR "Not your piece", st)
      | some piece =>
        if piece.player ≠ playerIndex then (errR "Not your piece", st)
        else
          let lm := getLegalMovesSt st fromSq
          let st1 := lm.2
          if !(lm.1.contains toSq) then (errR "Illegal move", st1)
          else applyLegalMove st1 playerIndex fromSq toSq promotion
    | _ => (errR "Invalid action", st)

end Chess

/-! ## The uniform engine interface (dynamic dispatch of src/unnamed/part_004) -/

inductive GType
  | tictactoe | morpion | mancala | checkers | chess | domino
  deriving Repr, DecidableEq

/-- A room engine instance: one of the six game state machines. -/
inductive Engine where
  | ttt (s : TTT.State)
  | morpion (s : Morpion.State)
  | mancala (s : Mancala.State)
  | checkers (s : Checkers.State)
  | chess (s : Chess.State)
  | domino (s : Domino.State)

/-- `room.game.gameOver`. -/
def Engine.gameOver : Engine → Bool
  | .ttt s => s.gameOver
  | .morpion s => s.gameOver
  | .mancala s => s.gameOver
  | .checkers s => s.gameOver
  | .chess s => s.gameOver
  | .domino s => s.gameOver

/-- `room.game.roundOver` (undefined, hence falsy, outside dominoes). -/
def Engine.roundOver : Engine → Bool
  | .domino s => s.roundOver
  | _ => false

/-- `room.game.handleAction(playerIndex, action)`; the dominoes deck for a
`next_round` redeal is fixed to the unshuffled full set. -/
def Engine.handleAction : Engine → Nat → Action → ROut × Engine
  | .ttt s, p, a => let r := TTT.handleAction s p a; (r.1, .ttt r.2)
  | .morpion s, p, a => let r := Morpion.handleAction s p a; (r.1, .morpion r.2)
  | .mancala s, p, a => let r := Mancala.handleAction s p a; (r.1, .mancala r.2)
  | .checkers s, p, a => let r := Checkers.handleAction s p a; (r.1, .checkers r.2)
  | .chess s, p, a => let r := Chess.handleAction s p a; (r.1, .chess r.2)
  | .domino s, p, a => let r := Domino.handleAction Domino.allTiles s p a; (r.1, .domino r.2)

/-! ## Payment-proof verification (verifyBetPayment, src/unnamed/part_004) -/

namespace Pay

/-- The data `getTransaction` resolves a signature to (the fields the
verifier reads): `meta.err`, the account keys and the lamport balances. -/
structure SolTx where
  metaErr : Bool
  accountKeys : List String
  preBalances : List ℚ
  postBalances : List ℚ

def LAMPORTS_PER_SOL : ℚ := 1000000000

/-- The structured outcome of `verifyBetPayment` (`{ok:false, error}` kinds
or `{ok:true, received}`). -/
inductive VerifyR where
  | replay
  | notFoundOrFailed
  | notToEscrow
  | insufficient (received : ℚ)
  | ok (received : ℚ)
  deriving Repr, DecidableEq

/-- `verifyBetPayment(signature, expectedAmount)`: the external ledger is the
`ledger` map, the process-wide `usedSignatures` set is the `used` list; the
updated set is returned alongside the result. -/
def verifyBetPayment (escrow : String) (ledger : String → Option SolTx)
    (used : List String) (signature : String) (expectedAmount : ℚ) :
    VerifyR × List String :=
  if signature ∈ used then (VerifyR.replay, used)
  else match ledger signature with
  | none => (VerifyR.notFoundOrFailed, used)
  | some tx =>
    if tx.metaErr then (VerifyR.notFoundOrFailed, used)
    else match tx.accountKeys.findIdx? (fun k => k = escrow) with
    | none => (VerifyR.notToEscrow, used)
    | some escrowIndex =>
      let received := (tx.postBalances.getD escrowIndex 0 -
        tx.preBalances.getD escrowIndex 0) / LAMPORTS_PER_SOL
      if received < expectedAmount * (99 / 100) then
        (VerifyR.insufficient received, used)
      else (VerifyR.ok received, signature :: used)

end Pay

/-! ## Settlement (handleGameOver, src/unnamed/part_004) -/

namespace Settle

def HOUSE_FEE : ℚ := 1 / 10

def HOUSE_WALLET : String := "2LK7yxZsy6YVCkFQ4PrL644ve1fgRj5FuDexj5JgS753"

/-- The outbound `sendSOL` transfers the winner branch of `handleGameOver`
issues, in order: payout to the winner, then the house cut to the house
wallet. Draw branch: each seated player is refunded the stake. `wallets`
is the `players` lookup (seat index to wallet address); transfers are
skipped for an unknown player or in test mode, exactly as in the source. -/
def handleGameOverTransfers (betAmount : ℚ) (winner : Option Nat)
    (wallets : Nat → Option String) (testMode : Bool) : List (String × ℚ) :=
  let pot := betAmount * 2
  let houseCut := pot * HOUSE_FEE
  let payout := pot - houseCut
  match winner with
  | some w =>
    match wallets w with
    | some addr => if testMode then [] else [(addr, payout), (HOUSE_WALLET, houseCut)]
    | none => []
  | none =>
    if testMode then []
    else (List.range 2).filterMap fun i =>
      match wallets i with
      | some addr => some (addr, betAmount)
      | none => none

/-- The `game_over` broadcast payout field (`payout` for a winner, 0 for a
draw). -/
def broadcastPayout (betAmount : ℚ) (winner : Option Nat) : ℚ :=
  match winner with
  | some _ => betAmount * 2 - betAmount * 2 * HOUSE_FEE
  | none => 0

end Settle

/-! ## The room record, turn timer and game_action pipeline
(src/unnamed/part_004: rooms, startTurnTimer, clearTurnTimer, the
game_action handler, handleGameOver and the in-game disconnect branch) -/

namespace Room

inductive RState
  | waiting | playing | finished
  deriving Repr, DecidableEq

/-- The room fields the timer discipline touches. -/
structure ServerRoom where
  st : RState
  gameType : GType
  game : Option Engine
  turnTimer : Option Nat

/-- The set of scheduled-and-not-yet-cancelled timeout callbacks of the
runtime (`setTimeout` handles), plus a fresh-handle counter. -/
structure TimerEnv where
  live : List Nat
  fresh : Nat

/-- `TIMER_DELAYS`: no entry for tictactoe, hence no timer for it. -/
def TIMER_DELAYS : GType → Option Nat
  | GType.domino => some 15500
  | GType.mancala => some 20500
  | GType.checkers => some 30500
  | GType.chess => some 60500
  | GType.morpion => some 30500
  | GType.tictactoe => none

/-- `clearTurnTimer(room)`. -/
def clearTurnTimer (r : ServerRoom) (env : TimerEnv) : ServerRoom × TimerEnv :=
  match r.turnTimer with
  | some t => ({ r with turnTimer := none }, { env with live := env.live.erase t })
  | none => (r, env)

/-- `startTurnTimer(room)`: always cancel first, then arm only when a game
is present, not over, not between rounds, and the game type has a delay. -/
def startTurnTimer (r : ServerRoom) (env : TimerEnv) : ServerRoom × TimerEnv :=
  let c := clearTurnTimer r env
  let r1 := c.1
  let e1 := c.2
  match r1.game with
  | none => (r1, e1)
  | some g =>
    if g.gameOver then (r1, e1)
    else if g.roundOver then (r1, e1)
    else match TIMER_DELAYS r1.gameType with
    | none => (r1, e1)
    | some _ =>
      ({ r1 with turnTimer := some e1.fresh },
        { live := e1.fresh :: e1.live, fresh := e1.fresh + 1 })

/-- The room-state effects of `handleGameOver`: cancel the timer and mark the
room finished (settlement emission is modelled separately in `Settle`). -/
def handleGameOverRoom (r : ServerRoom) (env : TimerEnv) : ServerRoom × TimerEnv :=
  let c := clearTurnTimer r env
  ({ c.1 with st := RState.finished }, c.2)

/-- The `game_action` handler pipeline for a room that resolved the acting
seat: apply the engine action, then on error stop, on a terminal result run
`handleGameOver`, otherwise re-arm the timer unless a dominoes round just
ended (`result.newRound || !result.roundOver`). -/
def gameActionStep (r : ServerRoom) (env : TimerEnv) (seat : Nat) (a : Action) :
    ServerRoom × TimerEnv × ROut :=
  match r.game with
  | none => (r, env, errR "no game")
  | some g =>
    let res := g.handleAction seat a
    let r1 := { r with game := some res.2 }
    if res.1.error.isSome then (r1, env, res.1)
    else if res.1.gameOver then
      let h := handleGameOverRoom r1 env
      (h.1, h.2, res.1)
    else if res.1.newRound || !res.1.roundOver then
      let t := startTurnTimer r1 env
      (t.1, t.2, res.1)
    else (r1, env, res.1)

/-- The room-state effect of the in-game `disconnect` branch: the room is
marked finished (the engine is left untouched and the timer is not
cancelled until the delayed `cleanupRoom`). -/
def disconnectRoom (r : ServerRoom) : ServerRoom :=
  if r.st = RState.playing then { r with st := RState.finished } else r

/-- The timer-singleton invariant: the live `setTimeout` handles of the room
are exactly the scalar handle it stores, and stored handles are older than
the fresh counter. -/
def TInv (r : ServerRoom) (env : TimerEnv) : Prop :=
  match r.turnTimer with
  | some t => env.live = [t] ∧ t < env.fresh
  | none => env.live = []

end Room

/-! ## Concrete states used by the closed witness theorems -/

namespace Wit

/-- A finished tic-tac-toe position. -/
def tttOver : TTT.State :=
  { size := 3, winLength := 3, board := fun _ => none, currentPlayer := 0,
    gameOver := true, winner := some 0 }

/-- A live chess position (empty board suffices for the resign branch). -/
def chessLive : Chess.State :=
  { board := fun _ => none, currentPlayer := 0, gameOver := false,
    winner := none, castlingRights := fun _ => ⟨true, true⟩, enPassant := none,
    halfMoveClock := 0, moveHistory := [], inCheck := false }

/-- A live checkers position with no pieces. -/
def checkersLive : Checkers.State :=
  { board := fun _ => none, currentPlayer := 0, gameOver := false,
    winner := none, mustJumpFrom := none }

/-- A live morpion position on the empty 15×15 board. -/
def morpionLive : Morpion.State :=
  { size := 15, winLength := 5, board := fun _ => none, currentPlayer := 0,
    gameOver := false, winner := none, winningCells := [], moveCount := 0,
    lastMove := none }

/-- The initial mancala pits `[4,4,4,4,4,4,0,4,4,4,4,4,4,0]`. -/
def initPits : Nat → Nat := fun i =>
  if i = 6 ∨ i = 13 then 0 else if i < 14 then 4 else 0

/-- A live mancala position at the initial layout. -/
def mancalaLive : Mancala.State :=
  { pits := initPits, currentPlayer := 0, gameOver := false, winner := none }

/-- A confirmed ledger transaction crediting one whole SOL to the escrow. -/
def okTx : Pay.SolTx :=
  { metaErr := false, accountKeys := ["escrow1", "payer"],
    preBalances := [0, 5000000000], postBalances := [1000000000, 4000000000] }

/-- A one-entry ledger resolving the proof reference "sig1". -/
def ledger1 : String → Option Pay.SolTx :=
  fun s => if s = "sig1" then some okTx else none

/-- Wallet table for the settlement witness. -/
def wallets2 : Nat → Option String :=
  fun i => if i = 0 then some "winnerAddr" else some "otherAddr"

/-- A checkers position where the man on square 17 jumps to the back-rank
square 3 (capturing 10), is promoted, and the new king has a further jump
over the man on 12. -/
def checkersPromo : Checkers.State :=
  { board := fun i =>
      if i = 17 then some { player := 0, king := false }
      else if i = 10 then some { player := 1, king := false }
      else if i = 12 then some { player := 1, king := false }
      else none,
    currentPlayer := 0, gameOver := false, winner := none, mustJumpFrom := none }

/-- A finished room (as the disconnect branch leaves it) still holding a
live morpion engine and the timer armed while it was playing. -/
def morpionRoomFinished : Room.ServerRoom :=
  { st := Room.RState.finished, gameType := GType.morpion,
    game := some (Engine.morpion morpionLive), turnTimer := some 5 }

/-- The timer environment matching `morpionRoomFinished`. -/
def env5 : Room.TimerEnv := { live := [5], fresh := 6 }

/-- A blocked dominoes position: boneyard empty, neither hand playable
against the 3-4 board ends, one pass already recorded, pips 3 vs 11. -/
def dominoBlocked : Domino.State :=
  { scores := fun _ => 0, round := 1, roundOver := false, roundWinner := none,
    roundPoints := 0, pipCounts := fun _ => 0, gameOver := false, winner := none,
    hands := fun p => if p = 0 then [(1, 2)] else [(5, 6)], boneyard := [],
    board := [(3, 4)], boardLeft := some 3, boardRight := some 4,
    currentPlayer := 0, consecutivePasses := 1 }

/-- A sparse castling position: the seat-0 king on its home square e1 (60)
with both rooks on their corners (56 and 63) and nothing else on the board. -/
def castleSt : Chess.State :=
  { board := fun i =>
      if i = 60 then some ⟨PieceT.K, 0⟩
      else if i = 63 then some ⟨PieceT.R, 0⟩
      else if i = 56 then some ⟨PieceT.R, 0⟩
      else none,
    currentPlayer := 0, gameOver := false, winner := none,
    castlingRights := fun _ => ⟨true, true⟩, enPassant := none,
    halfMoveClock := 0, moveHistory := [], inCheck := false }

end Wit

/-! # Theorems -/

/-- In every engine, a state with `gameOver` set rejects any action with the
game-over error and leaves the state untouched (helper, tic-tac-toe). -/
theorem ttt_handleAction_over (s : TTT.State) (p : Nat) (a : Action)
    (h : s.gameOver = true) : TTT.handleAction s p a = (errR "Game is over", s) := by
  unfold TTT.handleAction; rw [if_pos h]

theorem morpion_handleAction_over (s : Morpion.State) (p : Nat) (a : Action)
    (h : s.gameOver = true) : Morpion.handleAction s p a = (errR "Game is over", s) := by
  unfold Morpion.handleAction; rw [if_pos h]

theorem mancala_handleAction_over (s : Mancala.State) (p : Nat) (a : Action)
    (h : s.gameOver = true) : Mancala.handleAction s p a = (errR "Game is over", s) := by
  unfold Mancala.handleAction; rw [if_pos h]

theorem checkers_handleAction_over (s : Checkers.State) (p : Nat) (a : Action)
    (h : s.gameOver = true) : Checkers.handleAction s p a = (errR "Game is over", s) := by
  unfold Checkers.handleAction; rw [if_pos h]

theorem chess_handleAction_over (s : Chess.State) (p : Nat) (a : Action)
    (h : s.gameOver = true) : Chess.handleAction s p a = (errR "Game is over", s) := by
  unfold Chess.handleAction; rw [if_pos h]

theorem domino_handleAction_over (deck : List Domino.Tile) (s : Domino.State)
    (p : Nat) (a : Action) (h : s.gameOver = true) :
    Domino.handleAction deck s p a = (errR "Game is over", s) := by
  unfold Domino.handleAction; rw [if_pos h]

/-- C1: for every game engine (tic-tac-toe, morpion, mancala, checkers,
chess, dominoes) and every state with `gameOver = true`, `handleAction`
returns the structured game-over error for any seat and any action
(resign and next_round included) and applies no further move: the state
is returned unchanged. -/
theorem game_over_rejects_every_action (e : Engine) (seat : Nat) (a : Action)
    (h : e.gameOver = true) :
    e.handleAction seat a = (errR "Game is over", e) := by
  cases e with
  | ttt s =>
    simp only [Engine.gameOver] at h
    simp only [Engine.handleAction, ttt_handleAction_over s seat a h]
  | morpion s =>
    simp only [Engine.gameOver] at h
    simp only [Engine.handleAction, morpion_handleAction_over s seat a h]
  | mancala s =>
    simp only [Engine.gameOver] at h
    simp only [Engine.handleAction, mancala_handleAction_over s seat a h]
  | checkers s =>
    simp only [Engine.gameOver] at h
    simp only [Engine.handleAction, checkers_handleAction_over s seat a h]
  | chess s =>
    simp only [Engine.gameOver] at h
    simp only [Engine.handleAction, chess_handleAction_over s seat a h]
  | domino s =>
    simp only [Engine.gameOver] at h
    simp only [Engine.handleAction, domino_handleAction_over Domino.allTiles s seat a h]

/-- C1 witness: a concrete finished board rejects a `resign` and a
`next_round` with the game-over error. -/
theorem game_over_rejects_every_action_witness :
    (Engine.ttt Wit.tttOver).gameOver = true ∧
    (Engine.ttt Wit.tttOver).handleAction 1 Action.resign =
      (errR "Game is over", Engine.ttt Wit.tttOver) ∧
    (Engine.ttt Wit.tttOver).handleAction 0 Action.next_round =
      (errR "Game is over", Engine.ttt Wit.tttOver) :=
  ⟨rfl, game_over_rejects_every_action _ 1 Action.resign rfl,
    game_over_rejects_every_action _ 0 Action.next_round rfl⟩

/-- C10: in each engine supporting resign (chess, checkers, morpion,
mancala), the resign branch runs before the not-your-turn check, so either
seat may resign at any time; the game ends at once with the other seat as
winner. -/
theorem resign_before_turn_check :
    (∀ (s : Chess.State) (seat : Nat), s.gameOver = false →
      Chess.handleAction s seat Action.resign =
        ({ gameOver := true, winner := some (1 - seat), resigned := true },
          { s with gameOver := true, winner := some (1 - seat) })) ∧
    (∀ (s : Checkers.State) (seat : Nat), s.gameOver = false →
      Checkers.handleAction s seat Action.resign =
        ({ gameOver := true, winner := some (1 - seat), resigned := true },
          { s with gameOver := true, winner := some (1 - seat) })) ∧
    (∀ (s : Morpion.State) (seat : Nat), s.gameOver = false →
      Morpion.handleAction s seat Action.resign =
        ({ gameOver := true, winner := some (1 - seat), resigned := true },
          { s with gameOver := true, winner := some (1 - seat) })) ∧
    (∀ (s : Mancala.State) (seat : Nat), s.gameOver = false →
      Mancala.handleAction s seat Action.resign =
        ({ gameOver := true, winner := some (1 - seat), resigned := true },
          { s with gameOver := true, winner := some (1 - seat) })) := by
  refine ⟨?_, ?_, ?_, ?_⟩ <;> intro s seat h
  · unfold Chess.handleAction; rw [if_neg (by simp [h])]
  · unfold Checkers.handleAction; rw [if_neg (by simp [h])]
  · unfold Morpion.handleAction; rw [if_neg (by simp [h])]
  · unfold Mancala.handleAction; rw [if_neg (by simp [h])]

/-- C10 witness: with seat 0 to move in every game, seat 1 resigns
successfully and seat 0 is declared winner. -/
theorem resign_before_turn_check_witness :
    Wit.chessLive.currentPlayer = 0 ∧
    Chess.handleAction Wit.chessLive 1 Action.resign =
      ({ gameOver := true, winner := some 0, resigned := true },
        { Wit.chessLive with gameOver := true, winner := some 0 }) ∧
    Checkers.handleAction Wit.checkersLive 1 Action.resign =
      ({ gameOver := true, winner := some 0, resigned := true },
        { Wit.checkersLive with gameOver := true, winner := some 0 }) ∧
    Morpion.handleAction Wit.morpionLive 1 Action.resign =
      ({ gameOver := true, winner := some 0, resigned := true },
        { Wit.morpionLive with gameOver := true, winner := some 0 }) ∧
    Mancala.handleAction Wit.mancalaLive 1 Action.resign =
      ({ gameOver := true, winner := some 0, resigned := true },
        { Wit.mancalaLive with gameOver := true, winner := some 0 }) :=
  ⟨rfl, resign_before_turn_check.1 Wit.chessLive 1 rfl,
    resign_before_turn_check.2.1 Wit.checkersLive 1 rfl,
    resign_before_turn_check.2.2.1 Wit.morpionLive 1 rfl,
    resign_before_turn_check.2.2.2 Wit.mancalaLive 1 rfl⟩

/-- Write-back of a save/overwrite/restore sequence on two cells: the final
function equals the original. -/
theorem update4_restore {α : Type} (b : Nat → α) (t pos : Nat) (v2 v3 : α) :
    Function.update (Function.update (Function.update (Function.update b t v2)
      pos v3) pos (b pos)) t (b t) = b := by
  funext x
  by_cases h2 : x = t
  · subst h2; simp [Function.update_apply]
  · by_cases h3 : x = pos
    · subst h3; simp [Function.update_apply, h2]
    · simp [Function.update_apply, h2, h3]

/-- Write-back of a save/overwrite/restore sequence on three cells. -/
theorem update6_restore {α : Type} (b : Nat → α) (cap t pos : Nat) (v1 v2 v3 : α) :
    Function.update (Function.update (Function.update (Function.update
      (Function.update (Function.update b cap v1) t v2) pos v3) pos (b pos))
      t (b t)) cap (b cap) = b := by
  funext x
  by_cases h1 : x = cap
  · subst h1; simp [Function.update_apply]
  · by_cases h2 : x = t
    · subst h2; simp [Function.update_apply, h1]
    · by_cases h3 : x = pos
      · subst h3; simp [Function.update_apply, h1, h2]
      · simp [Function.update_apply, h1, h2, h3]

/-- The speculative apply-test-undo of one candidate move restores the board
exactly (the square the piece left, the target square and, for en passant,
the captured pawn square are all written back). -/
theorem chess_tryUndo_restore (b : Nat → Option Chess.Piece) (ep : Option Nat)
    (pos : Nat) (piece : Chess.Piece) (t : Nat) (h : b pos = some piece) :
    (Chess.tryUndo b ep pos piece t).2 = b := by
  unfold Chess.tryUndo
  by_cases hep : piece.t = PieceT.P ∧ some t = ep
  · rw [if_pos hep]
    dsimp only
    rw [← h]
    exact update6_restore b _ t pos none (b pos) none
  · rw [if_neg hep]
    dsimp only
    rw [← h]
    exact update4_restore b t pos (b pos) none

/-- The whole `_getLegalMoves` filtering loop leaves the board unchanged. -/
theorem chess_legalLoop_board (ep : Option Nat) (pos : Nat) (piece : Chess.Piece)
    (l : List Nat) (b : Nat → Option Chess.Piece) (h : b pos = some piece) :
    (Chess.legalLoop ep pos piece l b).2 = b := by
  induction l generalizing b with
  | nil => rfl
  | cons t rest ih =>
    unfold Chess.legalLoop
    simp only [chess_tryUndo_restore b ep pos piece t h]
    exact ih b h

/-- `_getLegalMoves` is observably pure: the threaded state comes back
unchanged. -/
theorem chess_getLegalMoves_state (st : Chess.State) (pos : Nat) :
    (Chess.getLegalMovesSt st pos).2 = st := by
  unfold Chess.getLegalMovesSt
  cases hb : st.board pos with
  | none => rfl
  | some piece =>
    simp only [chess_legalLoop_board st.enPassant pos piece
      (Chess.rawMoves st.board st.enPassant pos piece) st.board hb]

theorem ttt_error_atomic (s : TTT.State) (p : Nat) (a : Action) :
    (TTT.handleAction s p a).2 = s ∨ (TTT.handleAction s p a).1.error = none := by
  unfold TTT.handleAction
  dsimp only
  repeat' first
  | (left; exact rfl)
  | (right; exact rfl)
  | split

theorem morpion_error_atomic (s : Morpion.State) (p : Nat) (a : Action) :
    (Morpion.handleAction s p a).2 = s ∨ (Morpion.handleAction s p a).1.error = none := by
  unfold Morpion.handleAction
  dsimp only
  repeat' first
  | (left; exact rfl)
  | (right; exact rfl)
  | split

theorem mancala_error_atomic (s : Mancala.State) (p : Nat) (a : Action) :
    (Mancala.handleAction s p a).2 = s ∨ (Mancala.handleAction s p a).1.error = none := by
  unfold Mancala.handleAction
  dsimp only
  repeat' first
  | (left; exact rfl)
  | (right; exact rfl)
  | split

theorem checkers_endTurn_error (s : Checkers.State) :
    (Checkers.endTurn s).1.error = none := by
  unfold Checkers.endTurn
  dsimp only
  repeat' first
  | exact rfl
  | split

theorem checkers_applyJump_error (s : Checkers.State) (p fromSq toSq : Nat)
    (piece : Checkers.Piece) (jmp : Checkers.Jump) :
    (Checkers.applyJump s p fromSq toSq piece jmp).1.error = none := by
  unfold Checkers.applyJump
  try dsimp only
  repeat' first
  | exact rfl
  | (exact checkers_endTurn_error _)
  | split

theorem checkers_applyStep_error (s : Checkers.State) (p fromSq toSq : Nat)
    (piece : Checkers.Piece) :
    (Checkers.applyStep s p fromSq toSq piece).1.error = none :=
  checkers_endTurn_error _

theorem checkers_error_atomic (s : Checkers.State) (p : Nat) (a : Action) :
    atomicP s (Checkers.handleAction s p a) := by
  cases a <;>
    (unfold Checkers.handleAction
     try dsimp only
     repeat' first
     | (exact Or.inl rfl)
     | (exact Or.inr rfl)
     | split
     | (exact Or.inr (checkers_applyJump_error _ _ _ _ _ _))
     | (exact Or.inr (checkers_applyStep_error _ _ _ _ _)))

theorem domino_endRound_error (s : Domino.State) (w : Nat) :
    (Domino.endRound s w).1.error = none := by
  unfold Domino.endRound
  dsimp only
  repeat' first
  | exact rfl
  | split

theorem domino_endTurn_error (s : Domino.State) (p : Nat) :
    (Domino.endTurn s p).1.error = none := by
  unfold Domino.endTurn
  try dsimp only
  repeat' first
  | exact rfl
  | (exact domino_endRound_error _ _)
  | split

theorem domino_endRoundBlocked_error (s : Domino.State) :
    (Domino.endRoundBlocked s).1.error = none := by
  unfold Domino.endRoundBlocked Domino.endRoundBlockedWinner
  dsimp only
  repeat' first
  | exact rfl
  | split

theorem domino_error_atomic (deck : List Domino.Tile) (s : Domino.State)
    (p : Nat) (a : Action) :
    atomicP s (Domino.handleAction deck s p a) := by
  cases a <;>
    (unfold Domino.handleAction Domino.playTile Domino.drawFromBoneyard
       Domino.passMove
     try dsimp only
     repeat' first
     | (exact Or.inl rfl)
     | (exact Or.inr rfl)
     | split
     | (exact Or.inr (domino_endTurn_error _ _))
     | (exact Or.inr (domino_endRoundBlocked_error _)))

theorem chess_applyLegalMove_error (st1 : Chess.State) (p fromSq toSq : Nat)
    (promotion : Option PieceT) :
    (Chess.applyLegalMove st1 p fromSq toSq promotion).1.error = none := by
  unfold Chess.applyLegalMove
  try dsimp only
  repeat' first
  | exact rfl
  | split

theorem chess_error_atomic (s : Chess.State) (p : Nat) (a : Action) :
    atomicP s (Chess.handleAction s p a) := by
  cases a <;>
    (unfold Chess.handleAction
     try dsimp only
     repeat' first
     | (exact Or.inl rfl)
     | (exact Or.inr rfl)
     | split
     | (exact Or.inr (chess_applyLegalMove_error _ _ _ _ _))
     | (exact Or.inl (chess_getLegalMoves_state s _)))

/-- C9: rejections are atomic. Whenever any engine returns an error result,
the returned state is exactly the input state; in particular the chess
legal-move filter, which speculatively mutates the board, always restores it
before returning (last conjunct). -/
theorem rejection_is_atomic :
    (∀ (s : TTT.State) (p : Nat) (a : Action) (e : String),
      (TTT.handleAction s p a).1.error = some e → (TTT.handleAction s p a).2 = s) ∧
    (∀ (s : Morpion.State) (p : Nat) (a : Action) (e : String),
      (Morpion.handleAction s p a).1.error = some e → (Morpion.handleAction s p a).2 = s) ∧
    (∀ (s : Mancala.State) (p : Nat) (a : Action) (e : String),
      (Mancala.handleAction s p a).1.error = some e → (Mancala.handleAction s p a).2 = s) ∧
    (∀ (s : Checkers.State) (p : Nat) (a : Action) (e : String),
      (Checkers.handleAction s p a).1.error = some e → (Checkers.handleAction s p a).2 = s) ∧
    (∀ (deck : List Domino.Tile) (s : Domino.State) (p : Nat) (a : Action) (e : String),
      (Domino.handleAction deck s p a).1.error = some e →
        (Domino.handleAction deck s p a).2 = s) ∧
    (∀ (s : Chess.State) (p : Nat) (a : Action) (e : String),
      (Chess.handleAction s p a).1.error = some e → (Chess.handleAction s p a).2 = s) ∧
    (∀ (st : Chess.State) (pos : Nat), (Chess.getLegalMovesSt st pos).2 = st) := by
  refine ⟨?_, ?_, ?_, ?_, ?_, ?_, chess_getLegalMoves_state⟩
  · intro s p a e herr
    rcases ttt_error_atomic s p a with h | h
    · exact h
    · rw [h] at herr; exact Option.noConfusion herr
  · intro s p a e herr
    rcases morpion_error_atomic s p a with h | h
    · exact h
    · rw [h] at herr; exact Option.noConfusion herr
  · intro s p a e herr
    rcases mancala_error_atomic s p a with h | h
    · exact h
    · rw [h] at herr; exact Option.noConfusion herr
  · intro s p a e herr
    rcases checkers_error_atomic s p a with h | h
    · exact h
    · rw [h] at herr; exact Option.noConfusion herr
  · intro deck s p a e herr
    rcases domino_error_atomic deck s p a with h | h
    · exact h
    · rw [h] at herr; exact Option.noConfusion herr
  · intro s p a e herr
    rcases chess_error_atomic s p a with h | h
    · exact h
    · rw [h] at herr; exact Option.noConfusion herr

/-- C9 witness: concrete out-of-turn rejections in morpion and chess leave
the state unchanged. -/
theorem rejection_is_atomic_witness :
    (Morpion.handleAction Wit.morpionLive 1 (Action.place 3)).1.error =
      some "Not your turn" ∧
    (Morpion.handleAction Wit.morpionLive 1 (Action.place 3)).2 = Wit.morpionLive ∧
    (Chess.handleAction Wit.chessLive 0 (Action.move 0 1 none)).1.error =
      some "Not your piece" ∧
    (Chess.handleAction Wit.chessLive 0 (Action.move 0 1 none)).2 = Wit.chessLive :=
  ⟨rfl, rejection_is_atomic.2.1 Wit.morpionLive 1 (Action.place 3) "Not your turn" rfl,
    rfl, rejection_is_atomic.2.2.2.2.2.1 Wit.chessLive 0 (Action.move 0 1 none)
      "Not your piece" rfl⟩

/-- C3: `verifyInbound` succeeds at most once per proof reference. The
conjuncts: (1) a used proof is rejected as a replay with the set unchanged;
(2) an unresolved proof is rejected; (3) a failed transaction is rejected;
(4) a credit below 0.99 of the expected amount is rejected; (5) every
rejection leaves the used-proof set unchanged, so a failed verification
does not consume the proof; (6) success records the proof in the set; and
(7) after a success, verifying the same proof again - against any ledger,
escrow or amount - fails as a replay. -/
theorem verifyInbound_succeeds_at_most_once (escrow : String)
    (ledger : String → Option Pay.SolTx) (used : List String)
    (sig : String) (amt : ℚ) :
    (sig ∈ used →
      Pay.verifyBetPayment escrow ledger used sig amt = (Pay.VerifyR.replay, used)) ∧
    (sig ∉ used → ledger sig = none →
      Pay.verifyBetPayment escrow ledger used sig amt =
        (Pay.VerifyR.notFoundOrFailed, used)) ∧
    (sig ∉ used → ∀ tx, ledger sig = some tx → tx.metaErr = true →
      Pay.verifyBetPayment escrow ledger used sig amt =
        (Pay.VerifyR.notFoundOrFailed, used)) ∧
    (sig ∉ used → ∀ tx i, ledger sig = some tx → tx.metaErr = false →
      tx.accountKeys.findIdx? (fun k => k = escrow) = some i →
      (tx.postBalances.getD i 0 - tx.preBalances.getD i 0) / Pay.LAMPORTS_PER_SOL <
        amt * (99 / 100) →
      Pay.verifyBetPayment escrow ledger used sig amt =
        (Pay.VerifyR.insufficient
          ((tx.postBalances.getD i 0 - tx.preBalances.getD i 0) / Pay.LAMPORTS_PER_SOL),
          used)) ∧
    (∀ res u', Pay.verifyBetPayment escrow ledger used sig amt = (res, u') →
      (∀ q, res ≠ Pay.VerifyR.ok q) → u' = used) ∧
    (∀ q u', Pay.verifyBetPayment escrow ledger used sig amt = (Pay.VerifyR.ok q, u') →
      u' = sig :: used ∧ sig ∈ u') ∧
    (∀ q u' (escrow2 : String) (ledger2 : String → Option Pay.SolTx) (amt2 : ℚ),
      Pay.verifyBetPayment escrow ledger used sig amt = (Pay.VerifyR.ok q, u') →
      Pay.verifyBetPayment escrow2 ledger2 u' sig amt2 = (Pay.VerifyR.replay, u')) := by
  refine ⟨?_, ?_, ?_, ?_, ?_, ?_, ?_⟩
  · intro h
    unfold Pay.verifyBetPayment
    rw [if_pos h]
  · intro h hn
    simp [Pay.verifyBetPayment, h, hn]
  · intro h tx htx herr
    simp [Pay.verifyBetPayment, h, htx, herr]
  · intro h tx i htx herr hidx hlt
    simp only [Pay.verifyBetPayment, if_neg h, htx, herr, hidx]
    try dsimp only
    rw [if_pos hlt]
    simp
  · intro res u' heq hne
    unfold Pay.verifyBetPayment at heq
    try dsimp only at heq
    repeat' split at heq
    all_goals
      (injection heq with h1 h2; subst h1; subst h2)
    all_goals first
    | rfl
    | (exact absurd rfl (hne _))
  · intro q u' heq
    unfold Pay.verifyBetPayment at heq
    try dsimp only at heq
    repeat' split at heq
    all_goals injection heq with h1 h2
    all_goals first
    | exact Pay.VerifyR.noConfusion h1
    | (subst h2; exact ⟨rfl, List.mem_cons_self sig used⟩)
  · intro q u' escrow2 ledger2 amt2 heq
    unfold Pay.verifyBetPayment at heq
    try dsimp only at heq
    repeat' split at heq
    all_goals injection heq with h1 h2
    all_goals first
    | exact Pay.VerifyR.noConfusion h1
    | (subst h2
       unfold Pay.verifyBetPayment
       rw [if_pos (List.mem_cons_self sig used)])

/-- C3 witness: a fresh proof for 1 SOL verifies once (crediting exactly
1 SOL to the escrow), is recorded, and verifying it again is rejected as a
replay without changing the set. -/
theorem verifyInbound_succeeds_at_most_once_witness :
    Pay.verifyBetPayment "escrow1" Wit.ledger1 [] "sig1" 1 =
      (Pay.VerifyR.ok 1, ["sig1"]) ∧
    Pay.verifyBetPayment "escrow1" Wit.ledger1 ["sig1"] "sig1" 1 =
      (Pay.VerifyR.replay, ["sig1"]) := by
  have h1 : Pay.verifyBetPayment "escrow1" Wit.ledger1 [] "sig1" 1 =
      (Pay.VerifyR.ok 1, ["sig1"]) := by
    simp only [Pay.verifyBetPayment, Wit.ledger1, Wit.okTx, Pay.LAMPORTS_PER_SOL]
    norm_num [List.findIdx?]
  exact ⟨h1,
    (verifyInbound_succeeds_at_most_once "escrow1" Wit.ledger1 [] "sig1" 1).2.2.2.2.2.2
      1 ["sig1"] "escrow1" Wit.ledger1 1 h1⟩

/-- C4: settlement on a terminal transition computes `pot = 2 * stake`,
`houseCut = pot * 0.10` and `payout = pot - houseCut`; a winner receives the
payout while the house wallet receives the cut (and together they exhaust
the pot), a draw refunds each seat its stake, and the room is marked
finished. -/
theorem settlement_amounts (b : ℚ) (wallets : Nat → Option String) :
    (∀ w addr, wallets w = some addr →
      Settle.handleGameOverTransfers b (some w) wallets false =
        [(addr, 2 * b - 2 * b * (1 / 10)), (Settle.HOUSE_WALLET, 2 * b * (1 / 10))]) ∧
    ((2 * b - 2 * b * (1 / 10)) + 2 * b * (1 / 10) = 2 * b) ∧
    (∀ a0 a1, wallets 0 = some a0 → wallets 1 = some a1 →
      Settle.handleGameOverTransfers b none wallets false = [(a0, b), (a1, b)]) ∧
    (∀ (r : Room.ServerRoom) (env : Room.TimerEnv),
      ((Room.handleGameOverRoom r env).1).st = Room.RState.finished) := by
  refine ⟨?_, by ring, ?_, ?_⟩
  · intro w addr hw
    simp only [Settle.handleGameOverTransfers, Settle.HOUSE_FEE, hw]
    norm_num
    constructor <;> ring
  · intro a0 a1 h0 h1
    simp [Settle.handleGameOverTransfers, h0, h1, List.range_succ]
  · intro r env
    unfold Room.handleGameOverRoom
    rfl

/-- Facts about `_endRoundBlockedWinner`: the round ends, the given seat is
the round winner, and it scores the pip difference (the loser pips minus
its own), the loser score unchanged. -/
theorem domino_endRoundBlockedWinner_spec (s : Domino.State) (w : Nat)
    (hw : w < 2) :
    (Domino.endRoundBlockedWinner s w).1.winner = some w ∧
    (Domino.endRoundBlockedWinner s w).1.roundOver = true ∧
    (Domino.endRoundBlockedWinner s w).2.roundOver = true ∧
    (Domino.endRoundBlockedWinner s w).2.roundWinner = some w ∧
    (Domino.endRoundBlockedWinner s w).2.roundPoints =
      s.pipCounts (1 - w) - s.pipCounts w ∧
    (Domino.endRoundBlockedWinner s w).2.scores w =
      s.scores w + (s.pipCounts (1 - w) - s.pipCounts w) ∧
    (Domino.endRoundBlockedWinner s w).2.scores (1 - w) = s.scores (1 - w) := by
  unfold Domino.endRoundBlockedWinner
  dsimp only
  have hne : (1 - w) ≠ w := by omega
  split <;>
    refine ⟨rfl, rfl, rfl, rfl, rfl, ?_, ?_⟩ <;>
      simp [Function.update_apply, hne]

/-- The three branches of `_endRoundBlocked`. -/
theorem domino_endRoundBlocked_cases (s : Domino.State) :
    (Domino.pipCount s 0 < Domino.pipCount s 1 →
      Domino.endRoundBlocked s = Domino.endRoundBlockedWinner
        { s with pipCounts := fun p =>
            if p = 0 then Domino.pipCount s 0 else Domino.pipCount s 1 } 0) ∧
    (Domino.pipCount s 1 < Domino.pipCount s 0 →
      Domino.endRoundBlocked s = Domino.endRoundBlockedWinner
        { s with pipCounts := fun p =>
            if p = 0 then Domino.pipCount s 0 else Domino.pipCount s 1 } 1) ∧
    (Domino.pipCount s 0 = Domino.pipCount s 1 →
      Domino.endRoundBlocked s =
        ({ gameOver := false, roundOver := true, winner := none },
          { s with
            pipCounts := fun p =>
              if p = 0 then Domino.pipCount s 0 else Domino.pipCount s 1
            roundOver := true
            roundWinner := none
            roundPoints := 0 })) := by
  refine ⟨?_, ?_, ?_⟩ <;> intro h <;> (unfold Domino.endRoundBlocked; dsimp only)
  · rw [if_pos (by simpa using h)]
  · rw [if_neg (by simp; omega), if_pos (by simpa using h)]
  · rw [if_neg (by simp [h]), if_neg (by simp [h])]

/-- C8: in draw-mode dominoes, pass is rejected while the boneyard is
non-empty and while the seat still holds a playable tile; a second
consecutive pass with the boneyard empty ends the round blocked: the seat
with the lower pip total is the round winner and scores the difference
(pips of the other hand minus its own), while equal pip totals end the
round with no winner and no score change. -/
theorem domino_pass_blocked_round (deck : List Domino.Tile) (s : Domino.State)
    (seat : Nat) (hgo : s.gameOver = false) (hro : s.roundOver = false)
    (hturn : seat = s.currentPlayer) :
    (s.boneyard ≠ [] →
      Domino.handleAction deck s seat Action.pass =
        (errR "You must draw from the pile first", s)) ∧
    (s.boneyard = [] → Domino.hasPlayableTile s seat = true →
      Domino.handleAction deck s seat Action.pass =
        (errR "You have a playable tile", s)) ∧
    (s.boneyard = [] → Domino.hasPlayableTile s seat = false →
      1 ≤ s.consecutivePasses →
      ((Domino.handleAction deck s seat Action.pass).2.roundOver = true) ∧
      (Domino.pipCount s 0 < Domino.pipCount s 1 →
        (Domino.handleAction deck s seat Action.pass).1.winner = some 0 ∧
        (Domino.handleAction deck s seat Action.pass).2.roundWinner = some 0 ∧
        (Domino.handleAction deck s seat Action.pass).2.roundPoints =
          Domino.pipCount s 1 - Domino.pipCount s 0 ∧
        (Domino.handleAction deck s seat Action.pass).2.scores 0 =
          s.scores 0 + (Domino.pipCount s 1 - Domino.pipCount s 0) ∧
        (Domino.handleAction deck s seat Action.pass).2.scores 1 = s.scores 1) ∧
      (Domino.pipCount s 1 < Domino.pipCount s 0 →
        (Domino.handleAction deck s seat Action.pass).1.winner = some 1 ∧
        (Domino.handleAction deck s seat Action.pass).2.roundWinner = some 1 ∧
        (Domino.handleAction deck s seat Action.pass).2.roundPoints =
          Domino.pipCount s 0 - Domino.pipCount s 1 ∧
        (Domino.handleAction deck s seat Action.pass).2.scores 1 =
          s.scores 1 + (Domino.pipCount s 0 - Domino.pipCount s 1) ∧
        (Domino.handleAction deck s seat Action.pass).2.scores 0 = s.scores 0) ∧
      (Domino.pipCount s 0 = Domino.pipCount s 1 →
        (Domino.handleAction deck s seat Action.pass).1.winner = none ∧
        (Domino.handleAction deck s seat Action.pass).2.roundWinner = none ∧
        (Domino.handleAction deck s seat Action.pass).2.roundPoints = 0 ∧
        (Domino.handleAction deck s seat Action.pass).2.scores = s.scores)) := by
  have hpm : Domino.handleAction deck s seat Action.pass = Domino.passMove s seat := by
    unfold Domino.handleAction
    rw [if_neg (by simp [hgo])]
    dsimp only
    rw [if_neg (by simp [hro]), if_neg (by simp [hturn])]
  refine ⟨?_, ?_, ?_⟩
  · intro hb
    rw [hpm]
    unfold Domino.passMove
    rw [if_pos (by simp [hb])]
  · intro hb hp
    rw [hpm]
    unfold Domino.passMove
    rw [if_neg (by simp [hb]), if_pos hp]
  · intro hb hp hcp
    have h2 : Domino.passMove s seat =
        Domino.endRoundBlocked { s with consecutivePasses := s.consecutivePasses + 1 } := by
      unfold Domino.passMove
      rw [if_neg (by simp [hb]), if_neg (by simp [hp])]
      dsimp only
      rw [if_pos (by omega : 2 ≤ s.consecutivePasses + 1)]
    have hC := domino_endRoundBlocked_cases
      { s with consecutivePasses := s.consecutivePasses + 1 }
    refine ⟨?_, ?_, ?_, ?_⟩
    · rcases Nat.lt_trichotomy (Domino.pipCount s 0) (Domino.pipCount s 1) with
        hlt | heq2 | hgt
      · rw [hpm, h2, hC.1 hlt]
        exact (domino_endRoundBlockedWinner_spec _ 0 (by omega)).2.2.1
      · rw [hpm, h2, hC.2.2 heq2]
      · rw [hpm, h2, hC.2.1 hgt]
        exact (domino_endRoundBlockedWinner_spec _ 1 (by omega)).2.2.1
    · intro h01
      rw [hpm, h2, hC.1 h01]
      have A := domino_endRoundBlockedWinner_spec
        { { s with consecutivePasses := s.consecutivePasses + 1 } with
          pipCounts := fun p =>
            if p = 0 then
              Domino.pipCount { s with consecutivePasses := s.consecutivePasses + 1 } 0
            else
              Domino.pipCount { s with consecutivePasses := s.consecutivePasses + 1 } 1 }
        0 (by omega)
      exact ⟨A.1, A.2.2.2.1, A.2.2.2.2.1, A.2.2.2.2.2.1, A.2.2.2.2.2.2⟩
    · intro h10
      rw [hpm, h2, hC.2.1 h10]
      have A := domino_endRoundBlockedWinner_spec
        { { s with consecutivePasses := s.consecutivePasses + 1 } with
          pipCounts := fun p =>
            if p = 0 then
              Domino.pipCount { s with consecutivePasses := s.consecutivePasses + 1 } 0
            else
              Domino.pipCount { s with consecutivePasses := s.consecutivePasses + 1 } 1 }
        1 (by omega)
      exact ⟨A.1, A.2.2.2.1, A.2.2.2.2.1, A.2.2.2.2.2.1, A.2.2.2.2.2.2⟩
    · intro heqp
      rw [hpm, h2, hC.2.2 heqp]
      exact ⟨rfl, rfl, rfl, rfl⟩

/-- C8 witness: in a concrete blocked position (pips 3 vs 11, seat 0 to
move, one pass recorded), the second pass ends the round with seat 0
scoring 8; with a non-empty boneyard the pass is rejected. -/
theorem domino_pass_blocked_round_witness :
    ((Domino.handleAction Domino.allTiles Wit.dominoBlocked 0 Action.pass).2.roundOver
        = true ∧
      (Domino.handleAction Domino.allTiles Wit.dominoBlocked 0 Action.pass).2.roundWinner
        = some 0 ∧
      (Domino.handleAction Domino.allTiles Wit.dominoBlocked 0 Action.pass).2.scores 0
        = 8) ∧
    Domino.handleAction Domino.allTiles
        { Wit.dominoBlocked with boneyard := [(0, 0)] } 0 Action.pass =
      (errR "You must draw from the pile first",
        { Wit.dominoBlocked with boneyard := [(0, 0)] }) := by
  have h := domino_pass_blocked_round Domino.allTiles Wit.dominoBlocked 0 rfl rfl rfl
  have h3 := h.2.2 rfl (by decide) (by decide)
  have h01 := h3.2.1 (by decide)
  refine ⟨⟨h3.1, h01.2.1, ?_⟩, ?_⟩
  · rw [h01.2.2.2.1]
    decide
  · exact (domino_pass_blocked_round Domino.allTiles
      { Wit.dominoBlocked with boneyard := [(0, 0)] } 0 rfl rfl rfl).1 (by decide)

/-- The counter-clockwise sowing step never lands on the skipped store. -/
theorem mancala_sowStep_ne (opp pos : Nat) : Mancala.sowStep opp pos ≠ opp := by
  unfold Mancala.sowStep
  dsimp only
  split
  next h => omega
  next h => exact h

/-- A sowing loop of at least one seed never ends on the skipped store. -/
theorem mancala_sowLoop_ne (opp : Nat) : ∀ (n pos : Nat) (pits : Nat → Nat),
    1 ≤ n → (Mancala.sowLoop opp n pos pits).1 ≠ opp := by
  intro n
  induction n with
  | zero => intro pos pits h; omega
  | succ m ih =>
    intro pos pits _
    rcases Nat.eq_zero_or_pos m with hm | hm
    · subst hm
      unfold Mancala.sowLoop Mancala.sowLoop
      exact mancala_sowStep_ne opp pos
    · unfold Mancala.sowLoop
      exact ih _ _ hm

/-- C7: an accepted mancala sow lifts all seeds of the chosen own non-empty
pit and drops one per pit counter-clockwise skipping the opponent store
(the landing pit is never that store); when the last seed lands in the
sowing seat's own store the seat keeps the turn and the result reports an
extra turn; when it lands in one of its own pits that held no seed before
the landing (count 1 after the drop) with the opposite pit non-empty, the
opposite seeds plus the landing seed move to its store and both pits are
emptied; otherwise the sown pits stand and the turn passes. All clauses
are for non-terminating sows (neither side emptied). -/
theorem mancala_sowing_spec (s : Mancala.State) (seat pit : Nat)
    (hgo : s.gameOver = false) (hturn : seat = s.currentPlayer)
    (hseat : seat < 2) (hlo : Mancala.pitsLo seat ≤ pit)
    (hhi : pit ≤ Mancala.pitsHi seat) (hne : s.pits pit ≠ 0) :
    ∀ last pits1,
      Mancala.sowLoop (Mancala.oppStore seat) (s.pits pit) pit
        (Function.update s.pits pit 0) = (last, pits1) →
      (last ≠ Mancala.oppStore seat) ∧
      (last = Mancala.store seat →
        Mancala.isSideEmpty pits1 0 = false → Mancala.isSideEmpty pits1 1 = false →
        Mancala.handleAction s seat (Action.sow pit) =
          ({ gameOver := false, extraTurn := true },
            { s with pits := pits1 })) ∧
      (last ≠ Mancala.store seat →
        ¬(Mancala.pitsLo seat ≤ last ∧ last ≤ Mancala.pitsHi seat ∧
            pits1 last = 1 ∧ 0 < pits1 (12 - last)) →
        Mancala.isSideEmpty pits1 0 = false → Mancala.isSideEmpty pits1 1 = false →
        Mancala.handleAction s seat (Action.sow pit) =
          ({ gameOver := false, extraTurn := false },
            { s with pits := pits1, currentPlayer := 1 - s.currentPlayer })) ∧
      (∀ (hl : last ≠ Mancala.store seat)
          (h1 : Mancala.pitsLo seat ≤ last) (h2 : last ≤ Mancala.pitsHi seat)
          (h3 : pits1 last = 1) (h4 : 0 < pits1 (12 - last)),
        Mancala.isSideEmpty (Function.update (Function.update
            (Function.update pits1 (Mancala.store seat)
              (pits1 (Mancala.store seat) + pits1 (12 - last) + 1))
            (12 - last) 0) last 0) 0 = false →
        Mancala.isSideEmpty (Function.update (Function.update
            (Function.update pits1 (Mancala.store seat)
              (pits1 (Mancala.store seat) + pits1 (12 - last) + 1))
            (12 - last) 0) last 0) 1 = false →
        (Mancala.handleAction s seat (Action.sow pit)).1 =
          { gameOver := false, extraTurn := false } ∧
        (Mancala.handleAction s seat (Action.sow pit)).2.currentPlayer =
          1 - s.currentPlayer ∧
        (Mancala.handleAction s seat (Action.sow pit)).2.pits (Mancala.store seat) =
          pits1 (Mancala.store seat) + pits1 (12 - last) + 1 ∧
        (Mancala.handleAction s seat (Action.sow pit)).2.pits last = 0 ∧
        (Mancala.handleAction s seat (Action.sow pit)).2.pits (12 - last) = 0 ∧
        (∀ j, j ≠ Mancala.store seat → j ≠ last → j ≠ 12 - last →
          (Mancala.handleAction s seat (Action.sow pit)).2.pits j = pits1 j)) := by
  intro last pits1 hsown
  have hseeds : 1 ≤ s.pits pit := Nat.one_le_iff_ne_zero.mpr hne
  have hskip : last ≠ Mancala.oppStore seat := by
    have h := mancala_sowLoop_ne (Mancala.oppStore seat) (s.pits pit) pit
      (Function.update s.pits pit 0) hseeds
    rw [hsown] at h
    exact h
  have hstep : Mancala.handleAction s seat (Action.sow pit) =
      (let extraTurn : Bool := last = Mancala.store seat
       let pits2 := if extraTurn = false ∧ Mancala.pitsLo seat ≤ last ∧
            last ≤ Mancala.pitsHi seat ∧ pits1 last = 1 ∧ 0 < pits1 (12 - last) then
          Function.update (Function.update
            (Function.update pits1 (Mancala.store seat)
              (pits1 (Mancala.store seat) + pits1 (12 - last) + 1))
            (12 - last) 0) last 0
        else pits1
       if Mancala.isSideEmpty pits2 0 ∨ Mancala.isSideEmpty pits2 1 then
         let pits3 := Mancala.collectRemaining pits2
         let w : Option Nat :=
           if pits3 13 < pits3 6 then some 0
           else if pits3 6 < pits3 13 then some 1
           else some seat
         ({ gameOver := true, winner := w },
           { s with pits := pits3, gameOver := true, winner := w })
       else
         ({ gameOver := false, extraTurn := extraTurn },
           { s with
             pits := pits2
             currentPlayer := if extraTurn then s.currentPlayer
               else 1 - s.currentPlayer })) := by
    unfold Mancala.handleAction
    rw [if_neg (by simp [hgo])]
    dsimp only
    rw [if_neg (by simp [hturn]), if_neg (by omega), if_neg hne, hsown]
  refine ⟨hskip, ?_, ?_, ?_⟩
  · intro hl he0 he1
    have hc1 : ¬(decide (last = Mancala.store seat) = false ∧
        Mancala.pitsLo seat ≤ last ∧ last ≤ Mancala.pitsHi seat ∧
        pits1 last = 1 ∧ 0 < pits1 (12 - last)) := by simp [hl]
    have hc2 : ¬(Mancala.isSideEmpty pits1 0 = true ∨
        Mancala.isSideEmpty pits1 1 = true) := by simp [he0, he1]
    rw [hstep]
    dsimp only
    rw [if_neg hc1, if_neg hc2]
    simp [hl]
  · intro hl hnocap he0 he1
    have hc1 : ¬(decide (last = Mancala.store seat) = false ∧
        Mancala.pitsLo seat ≤ last ∧ last ≤ Mancala.pitsHi seat ∧
        pits1 last = 1 ∧ 0 < pits1 (12 - last)) := fun hcap => hnocap hcap.2
    have hc2 : ¬(Mancala.isSideEmpty pits1 0 = true ∨
        Mancala.isSideEmpty pits1 1 = true) := by simp [he0, he1]
    rw [hstep]
    dsimp only
    rw [if_neg hc1, if_neg hc2]
    simp [hl]
  · intro hl h1 h2 h3 h4 hp0 hp1
    have hc1 : (decide (last = Mancala.store seat) = false ∧
        Mancala.pitsLo seat ≤ last ∧ last ≤ Mancala.pitsHi seat ∧
        pits1 last = 1 ∧ 0 < pits1 (12 - last)) := ⟨by simp [hl], h1, h2, h3, h4⟩
    have hc2 : ¬(Mancala.isSideEmpty (Function.update (Function.update
        (Function.update pits1 (Mancala.store seat)
          (pits1 (Mancala.store seat) + pits1 (12 - last) + 1))
        (12 - last) 0) last 0) 0 = true ∨
        Mancala.isSideEmpty (Function.update (Function.update
        (Function.update pits1 (Mancala.store seat)
          (pits1 (Mancala.store seat) + pits1 (12 - last) + 1))
        (12 - last) 0) last 0) 1 = true) := by simp [hp0, hp1]
    rw [hstep]
    dsimp only
    rw [if_pos hc1, if_neg hc2]
    obtain rfl | rfl : seat = 0 ∨ seat = 1 := by omega
    · rw [show Mancala.store 0 = 6 from rfl] at hl ⊢
      rw [show Mancala.pitsLo 0 = 0 from rfl] at h1
      rw [show Mancala.pitsHi 0 = 5 from rfl] at h2
      refine ⟨by simp [hl], by simp [hl], ?_, ?_, ?_, ?_⟩ <;>
        (try intro j hj1 hj2 hj3) <;>
          (simp only [Function.update_apply]
           split_ifs <;> omega)
    · rw [show Mancala.store 1 = 13 from rfl] at hl ⊢
      rw [show Mancala.pitsLo 1 = 7 from rfl] at h1
      rw [show Mancala.pitsHi 1 = 12 from rfl] at h2
      refine ⟨by simp [hl], by simp [hl], ?_, ?_, ?_, ?_⟩ <;>
        (try intro j hj1 hj2 hj3) <;>
          (simp only [Function.update_apply]
           split_ifs <;> omega)

/-- C7 witness: from the initial layout seat 0 sows pit 2 (4 seeds); the
last seed lands in its store, the sow is accepted with an extra turn and
seat 0 keeps the move. -/
theorem mancala_sowing_spec_witness :
    Mancala.handleAction Wit.mancalaLive 0 (Action.sow 2) =
      ({ gameOver := false, extraTurn := true },
        { Wit.mancalaLive with
          pits := (Mancala.sowLoop (Mancala.oppStore 0) (Wit.mancalaLive.pits 2) 2
            (Function.update Wit.mancalaLive.pits 2 0)).2 }) ∧
    (Mancala.handleAction Wit.mancalaLive 0 (Action.sow 2)).2.currentPlayer = 0 := by
  have h := (mancala_sowing_spec Wit.mancalaLive 0 2 rfl rfl (by decide)
    (by decide) (by decide) (by decide)
    (Mancala.sowLoop (Mancala.oppStore 0) (Wit.mancalaLive.pits 2) 2
      (Function.update Wit.mancalaLive.pits 2 0)).1
    (Mancala.sowLoop (Mancala.oppStore 0) (Wit.mancalaLive.pits 2) 2
      (Function.update Wit.mancalaLive.pits 2 0)).2 rfl).2.1
    (by decide) (by decide) (by decide)
  exact ⟨h, by rw [h]; rfl⟩

/-- C4 witness: stake 1, seat 0 wins: the winner is paid 1.8, the house
receives 0.2, and a draw refunds 1 to each seat. -/
theorem settlement_amounts_witness :
    Settle.handleGameOverTransfers 1 (some 0) Wit.wallets2 false =
      [("winnerAddr", 2 * 1 - 2 * 1 * (1 / 10)),
        (Settle.HOUSE_WALLET, 2 * 1 * (1 / 10))] ∧
    Settle.handleGameOverTransfers 1 none Wit.wallets2 false =
      [("winnerAddr", 1), ("otherAddr", 1)] :=
  ⟨(settlement_amounts 1 Wit.wallets2).1 0 "winnerAddr" rfl,
    (settlement_amounts 1 Wit.wallets2).2.2.1 "winnerAddr" "otherAddr" rfl rfl⟩

/-- Field behaviour of the checkers `_endTurn`: the turn passes and the
board and `mustJumpFrom` are carried over unchanged. -/
theorem checkers_endTurn_fields (s : Checkers.State) :
    (Checkers.endTurn s).2.currentPlayer = 1 - s.currentPlayer ∧
    (Checkers.endTurn s).2.mustJumpFrom = s.mustJumpFrom ∧
    (Checkers.endTurn s).2.board = s.board := by
  unfold Checkers.endTurn
  dsimp only
  split_ifs <;> exact ⟨rfl, rfl, rfl⟩

/-- C5 counterexample: the claim that promotion ends multi-jumping at once
is false. The man on 17 jumps to back-rank square 3, is promoted, and since
the fresh king still has a capture (over 12) the engine keeps the turn with
seat 0 and sets `mustJumpFrom = 3` instead of passing the turn and clearing
it. -/
theorem checkers_promotion_claim_counterexample :
    (Checkers.handleAction Wit.checkersPromo 0 (Action.move 17 3 none)).1.multiJump
        = true ∧
    (Checkers.handleAction Wit.checkersPromo 0 (Action.move 17 3 none)).2.mustJumpFrom
        = some 3 ∧
    (Checkers.handleAction Wit.checkersPromo 0 (Action.move 17 3 none)).2.currentPlayer
        = 0 ∧
    Wit.checkersPromo.currentPlayer = 0 ∧
    (Checkers.handleAction Wit.checkersPromo 0 (Action.move 17 3 none)).2.board 3 =
      some { player := 0, king := true } ∧
    Checkers.getJumps
        ((Checkers.handleAction Wit.checkersPromo 0 (Action.move 17 3 none)).2.board)
        3 { player := 0, king := true } ≠ [] := by
  decide

/-- C5 (amended): a capturing move landing a man on the opposite back rank
promotes it to king, and multi-jumping then continues exactly when the
newly promoted king has further captures from the landing square (the turn
is kept and `mustJumpFrom` is set to the landing square); only when the
promoted king has no further capture does the turn pass with `mustJumpFrom`
cleared. -/
theorem checkers_promotion_multijump (s : Checkers.State)
    (seat fromSq toSq : Nat) (piece : Checkers.Piece) (jmp : Checkers.Jump)
    (hgo : s.gameOver = false) (hturn : seat = s.currentPlayer)
    (hf : fromSq ≤ 63) (ht : toSq ≤ 63)
    (hpiece : s.board fromSq = some piece) (hpl : piece.player = seat)
    (hmj : s.mustJumpFrom = none)
    (hfind : (Checkers.getJumps s.board fromSq piece).find?
      (fun j => j.dst = toSq) = some jmp)
    (hking : Checkers.shouldKing toSq seat = true) :
    (Checkers.getJumps
        (Function.update (Function.update (Function.update
          (Function.update s.board toSq (some piece)) fromSq none)
          jmp.captured none) toSq (some { piece with king := true }))
        toSq { piece with king := true } ≠ [] →
      Checkers.handleAction s seat (Action.move fromSq toSq none) =
        ({ gameOver := false, multiJump := true },
          { s with
            board := Function.update (Function.update (Function.update
              (Function.update s.board toSq (some piece)) fromSq none)
              jmp.captured none) toSq (some { piece with king := true })
            mustJumpFrom := some toSq })) ∧
    (Checkers.getJumps
        (Function.update (Function.update (Function.update
          (Function.update s.board toSq (some piece)) fromSq none)
          jmp.captured none) toSq (some { piece with king := true }))
        toSq { piece with king := true } = [] →
      (Checkers.handleAction s seat (Action.move fromSq toSq none)).2.mustJumpFrom
          = none ∧
      (Checkers.handleAction s seat (Action.move fromSq toSq none)).2.currentPlayer
          = 1 - s.currentPlayer ∧
      (Checkers.handleAction s seat (Action.move fromSq toSq none)).2.board toSq
          = some { piece with king := true }) := by
  have hjumps_ne : Checkers.getJumps s.board fromSq piece ≠ [] := by
    intro h0
    rw [h0] at hfind
    exact Option.noConfusion hfind
  have hhas : Checkers.playerHasJumps s.board seat = true := by
    unfold Checkers.playerHasJumps
    rw [List.any_eq_true]
    refine ⟨fromSq, List.mem_range.mpr (by omega), ?_⟩
    rw [hpiece]
    simp [hpl, List.isEmpty_iff, hjumps_ne]
  have hpath : Checkers.handleAction s seat (Action.move fromSq toSq none) =
      Checkers.applyJump s seat fromSq toSq piece jmp := by
    unfold Checkers.handleAction
    rw [if_neg (by simp [hgo])]
    try dsimp only
    rw [if_neg (by simp [hturn]), if_neg (by omega)]
    rw [hpiece]
    try dsimp only
    rw [if_neg (by simp [hpl]), if_neg (by simp [hmj])]
    try dsimp only
    rw [if_pos (by simp [hmj, hhas]), hfind]
  have hstep : Checkers.applyJump s seat fromSq toSq piece jmp =
      (let b4 := Function.update (Function.update (Function.update
        (Function.update s.board toSq (some piece)) fromSq none)
        jmp.captured none) toSq (some { piece with king := true })
      if !(Checkers.getJumps b4 toSq { piece with king := true }).isEmpty then
        ({ gameOver := false, multiJump := true },
          { s with board := b4, mustJumpFrom := some toSq })
      else
        Checkers.endTurn { s with board := b4, mustJumpFrom := none }) := by
    unfold Checkers.applyJump
    try dsimp only
    rw [if_pos hking]
  constructor
  · intro hmore
    rw [hpath, hstep]
    try dsimp only
    rw [if_pos (by simp [List.isEmpty_iff, hmore])]
  · intro hnone
    rw [hpath, hstep]
    try dsimp only
    rw [if_neg (by simp [List.isEmpty_iff, hnone])]
    have hfields := checkers_endTurn_fields
      { s with
        board := Function.update (Function.update (Function.update
          (Function.update s.board toSq (some piece)) fromSq none)
          jmp.captured none) toSq (some { piece with king := true })
        mustJumpFrom := none }
    refine ⟨hfields.2.1, hfields.1, ?_⟩
    rw [hfields.2.2]
    simp [Function.update_apply]

/-- C5 witness: the amended behaviour at the concrete promotion position:
further captures exist, so the engine reports a multi-jump continuation
from the landing square. -/
theorem checkers_promotion_multijump_witness :
    Checkers.handleAction Wit.checkersPromo 0 (Action.move 17 3 none) =
      ({ gameOver := false, multiJump := true },
        { Wit.checkersPromo with
          board := Function.update (Function.update (Function.update
            (Function.update Wit.checkersPromo.board 3
              (some { player := 0, king := false })) 17 none) 10 none) 3
            (some { player := 0, king := true })
          mustJumpFrom := some 3 }) :=
  (checkers_promotion_multijump Wit.checkersPromo 0 17 3
    { player := 0, king := false } { dst := 3, captured := 10 }
    rfl rfl (by decide) (by decide) (by decide) rfl rfl (by decide) (by decide)).1
    (by decide)

/-- `clearTurnTimer` always leaves the room without a stored handle. -/
theorem room_clear_none (r : Room.ServerRoom) (e : Room.TimerEnv) :
    (Room.clearTurnTimer r e).1.turnTimer = none := by
  unfold Room.clearTurnTimer
  cases hm : r.turnTimer with
  | none => exact hm
  | some t => rfl

/-- `clearTurnTimer` keeps the game and game type. -/
theorem room_clear_keeps (r : Room.ServerRoom) (e : Room.TimerEnv) :
    (Room.clearTurnTimer r e).1.game = r.game ∧
    (Room.clearTurnTimer r e).1.gameType = r.gameType := by
  unfold Room.clearTurnTimer
  cases r.turnTimer <;> exact ⟨rfl, rfl⟩

/-- Under the timer-singleton invariant, cancelling leaves no live timer
and does not advance the handle counter. -/
theorem room_clear_spec (r : Room.ServerRoom) (e : Room.TimerEnv)
    (h : Room.TInv r e) :
    (Room.clearTurnTimer r e).2.live = [] ∧
    (Room.clearTurnTimer r e).2.fresh = e.fresh := by
  unfold Room.TInv at h
  cases hm : r.turnTimer with
  | none =>
    rw [hm] at h
    simp [Room.clearTurnTimer, hm, h]
  | some t =>
    rw [hm] at h
    have h' : e.live = [t] ∧ t < e.fresh := h
    simp [Room.clearTurnTimer, hm, h'.1]

/-- The two possible outcomes of `startTurnTimer`: it stops after the
cancel, or it arms a fresh handle; arming happens only with a live,
not-over game whose type has a delay entry. -/
theorem room_start_shape (r : Room.ServerRoom) (e : Room.TimerEnv) :
    Room.startTurnTimer r e =
      ((Room.clearTurnTimer r e).1, (Room.clearTurnTimer r e).2) ∨
    ((∃ g, r.game = some g ∧ g.gameOver = false ∧ g.roundOver = false) ∧
      Room.TIMER_DELAYS r.gameType ≠ none ∧
      Room.startTurnTimer r e =
        ({ (Room.clearTurnTimer r e).1 with
            turnTimer := some (Room.clearTurnTimer r e).2.fresh },
          { live := (Room.clearTurnTimer r e).2.fresh ::
              (Room.clearTurnTimer r e).2.live,
            fresh := (Room.clearTurnTimer r e).2.fresh + 1 })) := by
  have hk := room_clear_keeps r e
  unfold Room.startTurnTimer
  try dsimp only
  cases hg : (Room.clearTurnTimer r e).1.game with
  | none => left; rfl
  | some g =>
    try dsimp only
    by_cases h1 : g.gameOver = true
    · rw [if_pos h1]; left; rfl
    rw [if_neg h1]
    by_cases h2 : g.roundOver = true
    · rw [if_pos h2]; left; rfl
    rw [if_neg h2]
    cases hd : Room.TIMER_DELAYS (Room.clearTurnTimer r e).1.gameType with
    | none => left; rfl
    | some d =>
      try dsimp only
      right
      refine ⟨⟨g, ?_, by simpa using h1, by simpa using h2⟩, ?_, rfl⟩
      · rw [← hk.1]; exact hg
      · rw [← hk.2]; simp [hd]

/-- Re-arming preserves the timer-singleton invariant, keeps at most one
live timer, and first cancels the previously armed handle. -/
theorem room_start_spec (r : Room.ServerRoom) (e : Room.TimerEnv)
    (h : Room.TInv r e) :
    Room.TInv (Room.startTurnTimer r e).1 (Room.startTurnTimer r e).2 ∧
    (Room.startTurnTimer r e).2.live.length ≤ 1 ∧
    (∀ t, r.turnTimer = some t → t ∉ (Room.startTurnTimer r e).2.live) := by
  have hc := room_clear_spec r e h
  have hnone := room_clear_none r e
  rcases room_start_shape r e with hs | ⟨_, _, hs⟩ <;> rw [hs]
  · refine ⟨?_, ?_, ?_⟩
    · unfold Room.TInv
      rw [hnone]
      exact hc.1
    · rw [hc.1]
      simp
    · intro t ht
      rw [hc.1]
      simp
  · refine ⟨?_, ?_, ?_⟩
    · unfold Room.TInv
      dsimp only
      rw [hc.1]
      exact ⟨rfl, by omega⟩
    · dsimp only
      rw [hc.1]
      simp
    · intro t ht
      dsimp only
      rw [hc.1]
      have h' : e.live = [t] ∧ t < e.fresh := by
        unfold Room.TInv at h
        rw [ht] at h
        exact h
      rw [hc.2]
      simp
      omega

/-- The `game_action` pipeline preserves the timer-singleton invariant. -/
theorem room_gameAction_inv (r : Room.ServerRoom) (e : Room.TimerEnv)
    (seat : Nat) (a : Action) (h : Room.TInv r e) :
    Room.TInv (Room.gameActionStep r e seat a).1
      (Room.gameActionStep r e seat a).2.1 := by
  unfold Room.gameActionStep
  cases hg : r.game with
  | none => exact h
  | some g =>
    dsimp only
    split_ifs with h1 h2 h3
    · exact h
    · have hinv1 : Room.TInv { r with game := some (g.handleAction seat a).2 } e := h
      have hc := room_clear_spec { r with game := some (g.handleAction seat a).2 } e hinv1
      have hnone := room_clear_none { r with game := some (g.handleAction seat a).2 } e
      unfold Room.handleGameOverRoom
      dsimp only
      unfold Room.TInv
      dsimp only
      rw [hnone]
      exact hc.1
    · exact (room_start_spec { r with game := some (g.handleAction seat a).2 } e h).1
    · exact h

/-- C2 (amended): for every room there is at most one live turn timer:
arming first cancels the previously armed handle, the invariant that the
live handles are exactly the stored scalar handle is preserved by arming,
cancelling and the whole game_action pipeline, a timer is armed only when
a game is present that is not over (and, for dominoes, not between
rounds) and its game type has a delay entry, and no timer is ever armed
for a tic-tac-toe room. (The room lifecycle state is not part of the
arming guard; see the counterexample for an arming in a finished room.) -/
theorem timer_singleton_discipline :
    (∀ (r : Room.ServerRoom) (e : Room.TimerEnv), Room.TInv r e →
      Room.TInv (Room.startTurnTimer r e).1 (Room.startTurnTimer r e).2 ∧
      (Room.startTurnTimer r e).2.live.length ≤ 1 ∧
      (∀ t, r.turnTimer = some t → t ∉ (Room.startTurnTimer r e).2.live)) ∧
    (∀ (r : Room.ServerRoom) (e : Room.TimerEnv) (seat : Nat) (a : Action),
      Room.TInv r e →
      Room.TInv (Room.gameActionStep r e seat a).1
        (Room.gameActionStep r e seat a).2.1) ∧
    (∀ (r : Room.ServerRoom) (e : Room.TimerEnv),
      (Room.startTurnTimer r e).1.turnTimer ≠ none →
      (∃ g, r.game = some g ∧ g.gameOver = false ∧ g.roundOver = false) ∧
      Room.TIMER_DELAYS r.gameType ≠ none) ∧
    (∀ (r : Room.ServerRoom) (e : Room.TimerEnv),
      r.gameType = GType.tictactoe →
      (Room.startTurnTimer r e).1.turnTimer = none) := by
  refine ⟨room_start_spec, room_gameAction_inv, ?_, ?_⟩
  · intro r e harm
    rcases room_start_shape r e with hs | ⟨hg, hd, hs⟩
    · rw [hs] at harm
      exact absurd (room_clear_none r e) harm
    · exact ⟨hg, hd⟩
  · intro r e hty
    rcases room_start_shape r e with hs | ⟨_, hd, _⟩
    · rw [hs]
      exact room_clear_none r e
    · rw [hty] at hd
      exact absurd rfl hd

/-- C2 witness: re-arming a playing morpion room with an armed timer keeps
the invariant and exactly one live timer, and the old handle is cancelled. -/
theorem timer_singleton_discipline_witness :
    Room.TInv { Wit.morpionRoomFinished with st := Room.RState.playing } Wit.env5 ∧
    (Room.startTurnTimer
      { Wit.morpionRoomFinished with st := Room.RState.playing } Wit.env5).2.live.length ≤ 1 ∧
    (5 : Nat) ∉ (Room.startTurnTimer
      { Wit.morpionRoomFinished with st := Room.RState.playing } Wit.env5).2.live := by
  have hinv : Room.TInv
      { Wit.morpionRoomFinished with st := Room.RState.playing } Wit.env5 :=
    ⟨rfl, by decide⟩
  exact ⟨hinv, (timer_singleton_discipline.1 _ _ hinv).2.1,
    (timer_singleton_discipline.1 _ _ hinv).2.2 5 rfl⟩

/-- C2 counterexample: the claim that a timer is armed only while the room
is in state `playing` is false. After a mid-game disconnect the room is
`finished` while its engine is still live; a `game_action` arriving in the
grace window is applied and arms a fresh timer in the finished room. -/
theorem timer_armed_in_finished_room :
    Room.disconnectRoom { Wit.morpionRoomFinished with st := Room.RState.playing } =
      Wit.morpionRoomFinished ∧
    Wit.morpionRoomFinished.st = Room.RState.finished ∧
    (Room.gameActionStep Wit.morpionRoomFinished Wit.env5 0 (Action.place 0)).2.2.error
        = none ∧
    (Room.gameActionStep Wit.morpionRoomFinished Wit.env5 0 (Action.place 0)).1.st
        = Room.RState.finished ∧
    (Room.gameActionStep Wit.morpionRoomFinished Wit.env5 0 (Action.place 0)).1.turnTimer
        = some 6 ∧
    (Room.gameActionStep Wit.morpionRoomFinished Wit.env5 0 (Action.place 0)).2.1.live
        = [6] := by
  refine ⟨rfl, rfl, ?_, ?_, ?_, ?_⟩ <;> decide

/-- Every king delta moves at most one row and one column. -/
theorem chess_kingDeltas_bounds : ∀ d ∈ Chess.kingDeltas,
    -1 ≤ d.1 ∧ d.1 ≤ 1 ∧ -1 ≤ d.2 ∧ d.2 ≤ 1 := by decide

/-- Raw king moves from the home file never reach either castling target:
the two-square hops to `r*8+6` and `r*8+2` come only from the castling
block. -/
theorem chess_king_raw_no_castle (b : Nat → Option Chess.Piece)
    (ep : Option Nat) (r pl t : Nat)
    (hm : t ∈ Chess.rawMoves b ep (r * 8 + 4) ⟨PieceT.K, pl⟩) :
    t ≠ r * 8 + 6 ∧ t ≠ r * 8 + 2 := by
  unfold Chess.rawMoves at hm
  try dsimp only at hm
  rw [show ((r * 8 + 4) / 8 : Nat) = r from by omega,
    show ((r * 8 + 4) % 8 : Nat) = 4 from by omega] at hm
  rw [List.mem_filterMap] at hm
  obtain ⟨d, hd, hf⟩ := hm
  obtain ⟨hb1, hb2, hb3, hb4⟩ := chess_kingDeltas_bounds d hd
  try dsimp only at hf
  split at hf
  · rename_i hob
    simp only [Chess.onBoard, Bool.and_eq_true, decide_eq_true_eq] at hob
    obtain ⟨⟨⟨ho1, ho2⟩, ho3⟩, ho4⟩ := hob
    split at hf
    · split at hf
      · rw [Option.some.injEq] at hf
        subst hf
        simp only [Chess.sqIx]
        constructor <;> omega
      · exact absurd hf (by simp)
    · rw [Option.some.injEq] at hf
      subst hf
      simp only [Chess.sqIx]
      constructor <;> omega
  · exact absurd hf (by simp)

/-- The legal-move filtering loop only selects from its input candidates. -/
theorem chess_legalLoop_subset (ep : Option Nat) (pos : Nat)
    (piece : Chess.Piece) (l : List Nat) :
    ∀ (b : Nat → Option Chess.Piece) (t : Nat),
      t ∈ (Chess.legalLoop ep pos piece l b).1 → t ∈ l := by
  induction l with
  | nil =>
    intro b t h
    unfold Chess.legalLoop at h
    exact absurd h (by simp)
  | cons x rest ih =>
    intro b t h
    unfold Chess.legalLoop at h
    try dsimp only at h
    rw [List.mem_cons]
    by_cases hs : (Chess.tryUndo b ep pos piece x).1 = true
    · rw [if_pos hs] at h
      rcases List.mem_cons.mp h with h | h
      · exact Or.inl h
      · exact Or.inr (ih _ t h)
    · rw [if_neg hs] at h
      exact Or.inr (ih _ t h)

/-- Membership of the kingside castling target in the castling block,
characterised by the source's guard conditions. -/
theorem chess_castle_ks_mem (b : Nat → Option Chess.Piece) (ep : Option Nat)
    (cr : Chess.CastleR) (r : Nat) (piece : Chess.Piece) :
    (r * 8 + 6) ∈ Chess.castleMoves b ep cr (r * 8 + 4) piece ↔
      (cr.kingSide = true ∧ b (r * 8 + 5) = none ∧ b (r * 8 + 6) = none ∧
       (∃ rook, b (r * 8 + 7) = some rook ∧ rook.t = PieceT.R ∧
         rook.player = piece.player) ∧
       Chess.isInCheck b ep piece.player = false ∧
       Chess.isSquareAttacked b ep (r * 8 + 5) (1 - piece.player) = false ∧
       Chess.isSquareAttacked b ep (r * 8 + 6) (1 - piece.player) = false) := by
  unfold Chess.castleMoves
  try dsimp only
  rw [show ((r * 8 + 4) / 8 : Nat) = r from by omega]
  rw [List.mem_append]
  constructor
  · rintro (h | h)
    · split at h
      · rename_i hks
        split at h
        · rename_i rook hrook
          split at h
          · rename_i hcond
            exact ⟨hks.1, hks.2.1, hks.2.2, ⟨rook, hrook, hcond.1, hcond.2.1⟩,
              hcond.2.2.1, hcond.2.2.2.1, hcond.2.2.2.2⟩
          · exact absurd h (by simp)
        · exact absurd h (by simp)
      · exact absurd h (by simp)
    · exfalso
      split at h
      · split at h
        · split at h
          · rw [List.mem_singleton] at h
            omega
          · exact absurd h (by simp)
        · exact absurd h (by simp)
      · exact absurd h (by simp)
  · rintro ⟨h1, h2, h3, ⟨rook, hb7, hr1, hr2⟩, h4, h5, h6⟩
    refine Or.inl ?_
    rw [if_pos ⟨h1, h2, h3⟩, hb7]
    try dsimp only
    rw [if_pos ⟨hr1, hr2, h4, h5, h6⟩]
    simp

/-- Membership of the queenside castling target in the castling block,
characterised by the source's guard conditions. -/
theorem chess_castle_qs_mem (b : Nat → Option Chess.Piece) (ep : Option Nat)
    (cr : Chess.CastleR) (r : Nat) (piece : Chess.Piece) :
    (r * 8 + 2) ∈ Chess.castleMoves b ep cr (r * 8 + 4) piece ↔
      (cr.queenSide = true ∧ b (r * 8 + 1) = none ∧ b (r * 8 + 2) = none ∧
       b (r * 8 + 3) = none ∧
       (∃ rook, b (r * 8 + 0) = some rook ∧ rook.t = PieceT.R ∧
         rook.player = piece.player) ∧
       Chess.isInCheck b ep piece.player = false ∧
       Chess.isSquareAttacked b ep (r * 8 + 2) (1 - piece.player) = false ∧
       Chess.isSquareAttacked b ep (r * 8 + 3) (1 - piece.player) = false) := by
  unfold Chess.castleMoves
  try dsimp only
  rw [show ((r * 8 + 4) / 8 : Nat) = r from by omega]
  rw [List.mem_append]
  constructor
  · rintro (h | h)
    · exfalso
      split at h
      · split at h
        · split at h
          · rw [List.mem_singleton] at h
            omega
          · exact absurd h (by simp)
        · exact absurd h (by simp)
      · exact absurd h (by simp)
    · split at h
      · rename_i hqs
        split at h
        · rename_i rook hrook
          split at h
          · rename_i hcond
            exact ⟨hqs.1, hqs.2.1, hqs.2.2.1, hqs.2.2.2,
              ⟨rook, hrook, hcond.1, hcond.2.1⟩,
              hcond.2.2.1, hcond.2.2.2.1, hcond.2.2.2.2⟩
          · exact absurd h (by simp)
        · exact absurd h (by simp)
      · exact absurd h (by simp)
  · rintro ⟨h1, h2, h3, h4, ⟨rook, hb0, hr1, hr2⟩, h5, h6, h7⟩
    refine Or.inr ?_
    rw [if_pos ⟨h1, h2, h3, h4⟩, hb0]
    try dsimp only
    rw [if_pos ⟨hr1, hr2, h5, h6, h7⟩]
    simp

/-- C6: for a king standing on its home file square `r*8+4`, the castling
move two squares toward a corner rook is in the legal-move set exactly when
the castling rights for that side stand, every square between the king and
that rook is empty, a rook of the king's colour occupies the corner, and
the king is neither in check nor passes through nor lands on an attacked
square (kingside target `r*8+6`, squares 5 and 6; queenside target
`r*8+2`, squares 1-3 empty and squares 2 and 3 safe). -/
theorem chess_castling_conditions (st : Chess.State) (r pl : Nat)
    (hk : st.board (r * 8 + 4) = some ⟨PieceT.K, pl⟩) :
    ((r * 8 + 6) ∈ Chess.legalMoves st (r * 8 + 4) ↔
      ((st.castlingRights pl).kingSide = true ∧
       st.board (r * 8 + 5) = none ∧ st.board (r * 8 + 6) = none ∧
       (∃ rook, st.board (r * 8 + 7) = some rook ∧ rook.t = PieceT.R ∧
         rook.player = pl) ∧
       Chess.isInCheck st.board st.enPassant pl = false ∧
       Chess.isSquareAttacked st.board st.enPassant (r * 8 + 5) (1 - pl) = false ∧
       Chess.isSquareAttacked st.board st.enPassant (r * 8 + 6) (1 - pl) = false)) ∧
    ((r * 8 + 2) ∈ Chess.legalMoves st (r * 8 + 4) ↔
      ((st.castlingRights pl).queenSide = true ∧
       st.board (r * 8 + 1) = none ∧ st.board (r * 8 + 2) = none ∧
       st.board (r * 8 + 3) = none ∧
       (∃ rook, st.board (r * 8 + 0) = some rook ∧ rook.t = PieceT.R ∧
         rook.player = pl) ∧
       Chess.isInCheck st.board st.enPassant pl = false ∧
       Chess.isSquareAttacked st.board st.enPassant (r * 8 + 2) (1 - pl) = false ∧
       Chess.isSquareAttacked st.board st.enPassant (r * 8 + 3) (1 - pl) = false)) := by
  have hboard := chess_legalLoop_board st.enPassant (r * 8 + 4) ⟨PieceT.K, pl⟩
    (Chess.rawMoves st.board st.enPassant (r * 8 + 4) ⟨PieceT.K, pl⟩) st.board hk
  unfold Chess.legalMoves Chess.getLegalMovesSt
  rw [hk]
  try dsimp only
  rw [if_pos rfl]
  rw [hboard]
  constructor
  · constructor
    · intro h
      rcases List.mem_append.mp h with h | h
      · exact absurd rfl (chess_king_raw_no_castle st.board st.enPassant r pl _
          (chess_legalLoop_subset st.enPassant (r * 8 + 4) ⟨PieceT.K, pl⟩ _ _ _ h)).1
      · exact (chess_castle_ks_mem st.board st.enPassant
          (st.castlingRights pl) r ⟨PieceT.K, pl⟩).mp h
    · intro hc
      exact List.mem_append.mpr (Or.inr ((chess_castle_ks_mem st.board
        st.enPassant (st.castlingRights pl) r ⟨PieceT.K, pl⟩).mpr hc))
  · constructor
    · intro h
      rcases List.mem_append.mp h with h | h
      · exact absurd rfl (chess_king_raw_no_castle st.board st.enPassant r pl _
          (chess_legalLoop_subset st.enPassant (r * 8 + 4) ⟨PieceT.K, pl⟩ _ _ _ h)).2
      · exact (chess_castle_qs_mem st.board st.enPassant
          (st.castlingRights pl) r ⟨PieceT.K, pl⟩).mp h
    · intro hc
      exact List.mem_append.mpr (Or.inr ((chess_castle_qs_mem st.board
        st.enPassant (st.castlingRights pl) r ⟨PieceT.K, pl⟩).mpr hc))

/-- C6 witness: in the sparse home position both castling targets are in
the legal-move set of the king on e1. -/
theorem chess_castling_conditions_witness :
    Wit.castleSt.board (7 * 8 + 4) = some ⟨PieceT.K, 0⟩ ∧
    (7 * 8 + 6) ∈ Chess.legalMoves Wit.castleSt (7 * 8 + 4) ∧
    (7 * 8 + 2) ∈ Chess.legalMoves Wit.castleSt (7 * 8 + 4) := by
  refine ⟨rfl, ?_, ?_⟩
  · exact (chess_castling_conditions Wit.castleSt 7 0 rfl).1.mpr
      ⟨rfl, by decide, by decide, ⟨⟨PieceT.R, 0⟩, by decide, rfl, rfl⟩,
        by decide, by decide, by decide⟩
  · exact (chess_castling_conditions Wit.castleSt 7 0 rfl).2.mpr
      ⟨rfl, by decide, by decide, by decide, ⟨⟨PieceT.R, 0⟩, by decide, rfl, rfl⟩,
        by decide, by decide, by decide⟩

end ZG
